import Mathlib

/-!
Verification development for the xiaoshubao image-generation orchestration
engine.  The definitions below are a shallow embedding of
`backend/services/image.py`, `backend/services/storage.py` and
`backend/services/history.py`.  External effects (the provider SDK call, the
S3 `put_object`, wall-clock sleeps) are modelled by explicit oracles carried
in an environment record; sleeps are recorded as a list of durations.
-/

namespace XSB

/-- Image bytes, modelled as a list of byte values. -/
abbrev Bytes := List Nat

/-- One unit of work (`page` dict in the source): `index`, `type`, `content`. -/
structure Page where
  index : Nat
  ptype : String
  content : String
deriving DecidableEq, Repr

/-- Modelled from the spec: `backend/utils/image_compressor.compress_image` is
not part of the sources at hand.  Per the spec ("re-encodes image bytes below
a target byte budget while preserving perceptual quality") it is modelled as
a deterministic re-encode whose output never exceeds `maxSizeKB` kilobytes. -/
def compress_image (data : Bytes) (maxSizeKB : Nat) : Bytes :=
  data.take (maxSizeKB * 1024)

/-- Python-dict upsert on an insertion-ordered association list:
`d[k] = v` keeps the position of an existing key and appends a fresh one. -/
def dictSet (d : List (Nat × String)) (k : Nat) (v : String) : List (Nat × String) :=
  if d.any (fun q => q.1 == k) then
    d.map (fun q => if q.1 == k then (k, v) else q)
  else
    d ++ [(k, v)]

/-- Python-dict `del d[k]` (also a no-op when the key is absent, matching the
guarded `if index in failed: del failed[index]` call sites). -/
def dictDel (d : List (Nat × String)) (k : Nat) : List (Nat × String) :=
  d.filter (fun q => q.1 ≠ k)

/-- Key-membership test (`k in d`). -/
def dictHas (d : List (Nat × String)) (k : Nat) : Bool :=
  d.any (fun q => q.1 == k)

/-- The boto3 S3 client inside `StorageService`: `put_object` may fail with a
`ClientError` (modelled as a message). -/
structure S3Client where
  putObject : String → Bytes → String → Except String Unit

/-- Configuration slice of `StorageService` used by `upload_file`. -/
structure StorageCfg where
  bucketName : String
  publicDomain : Option String
  endpointUrl : String

/-- The `StorageService` object: `s3_client` is `None` when the R2
configuration is missing or invalid. -/
structure StorageService where
  client : Option S3Client
  cfg : StorageCfg

/-- `StorageService.upload_file` from `backend/services/storage.py`: with no
client it logs and returns the empty string; otherwise it puts the object and
builds the public URL (custom domain if truthy, else endpoint/bucket/key). -/
def upload_file (svc : StorageService) (fileData : Bytes) (objectName : String)
    (contentType : String) : Except String String :=
  match svc.client with
  | none => .ok ""
  | some c =>
    match c.putObject objectName fileData contentType with
    | .error e => .error e
    | .ok _ =>
      match svc.cfg.publicDomain with
      | some d =>
        if d = "" then .ok (svc.cfg.endpointUrl ++ "/" ++ svc.cfg.bucketName ++ "/" ++ objectName)
        else .ok ((d.dropRightWhile (fun ch => ch = '/')) ++ "/" ++ objectName)
      | none => .ok (svc.cfg.endpointUrl ++ "/" ++ svc.cfg.bucketName ++ "/" ++ objectName)

/-- Outcome of one raw generator call (`self.generator.generate_image`):
either bytes (possibly empty) or a raised exception. -/
inductive GenResult where
  | ok (data : Bytes)
  | exc (msg : String)

/-- Environment of an `ImageService` instance: the provider type from the
provider config, the generator modelled as an oracle indexed by page index
and attempt number, and the storage service singleton. -/
structure Env where
  providerType : String
  gen : Nat → Nat → GenResult
  storage : StorageService

/-- An upload performed against the object store (key, content type, body). -/
structure Upload where
  key : String
  contentType : String
  data : Bytes
deriving DecidableEq, Repr

/-- `os.path.basename` for the forward-slash paths used by `_save_image`:
the characters after the last `/` (the whole string when it has none). -/
def basename (s : String) : String :=
  String.mk ((s.data.reverse.takeWhile (fun ch => !(ch == '/'))).reverse)

/-- `ImageService._save_image`: upload the original PNG under
`{task_id}/{filename}`, then a `compress_image(·, 50)` thumbnail under
`{task_id}/thumb_{filename}` with content type `image/jpeg`.  Returns the
original's object key together with the uploads performed; an upload error
is re-raised as `图片上传失败: ...`.  (The `current_task_dir` fallback for a
`None` third argument is not modelled: every call site passes `task_id`.) -/
def saveImage (env : Env) (imageData : Bytes) (filename : String)
    (taskIdOrPath : String) : Except String (String × List Upload) :=
  let taskId := basename taskIdOrPath
  let objectName := taskId ++ "/" ++ filename
  match upload_file env.storage imageData objectName "image/png" with
  | .error e => .error ("图片上传失败: " ++ e ++ "。请检查 R2 配置。")
  | .ok _ =>
    let thumbnailData := compress_image imageData 50
    let thumbObjectName := taskId ++ "/" ++ ("thumb_" ++ filename)
    match upload_file env.storage thumbnailData thumbObjectName "image/jpeg" with
    | .error e => .error ("图片上传失败: " ++ e ++ "。请检查 R2 配置。")
    | .ok _ =>
      .ok (objectName,
        [⟨objectName, "image/png", imageData⟩,
         ⟨thumbObjectName, "image/jpeg", thumbnailData⟩])

/-- Reference-image list built in the `image_api` branch of
`_generate_single_image`: user images first (skipped when `None`/empty by
Python truthiness), then the cover reference (skipped when `None`/empty);
`None` is passed when the list stays empty. -/
def refImagesArg (userImages : Option (List Bytes)) (referenceImage : Option Bytes) :
    Option (List Bytes) :=
  let r0 : List Bytes :=
    match userImages with
    | some us => if us.isEmpty then [] else us
    | none => []
  let r1 : List Bytes :=
    match referenceImage with
    | some rb => if rb.isEmpty then r0 else r0 ++ [rb]
    | none => r0
  if r1.isEmpty then none else some r1

/-- Record of one generator invocation: the arguments `_generate_single_image`
passed for this attempt, plus the `reference_images` list computed in the
`image_api` branch (and `none` for the other provider branches). -/
structure CallRec where
  index : Nat
  attempt : Nat
  referenceImage : Option Bytes
  userImages : Option (List Bytes)
  referenceImages : Option (List Bytes)
deriving DecidableEq, Repr

/-- The `(index, success, filename, error_message, image_data)` tuple returned
by `_generate_single_image`. -/
structure SingleResult where
  index : Nat
  success : Bool
  filename : Option String
  error : Option String
  imageData : Option Bytes
deriving DecidableEq, Repr

/-- `ImageService.AUTO_RETRY_COUNT`. -/
def AUTO_RETRY_COUNT : Nat := 3

/-- `ImageService.MAX_CONCURRENT`. -/
def MAX_CONCURRENT : Nat := 15

/-- Outcome of one loop iteration of `_generate_single_image`: render the
prompt (not modelled: it feeds only the provider call), invoke the generator
(recorded in the call log), raise on empty bytes, then upload via
`_save_image`.  Prompt-template selection does not affect control flow. -/
def attemptOnce (env : Env) (page : Page) (taskId : String)
    (referenceImage : Option Bytes) (userImages : Option (List Bytes))
    (attempt : Nat) : Except String (String × Bytes) × CallRec :=
  let c : CallRec :=
    { index := page.index, attempt := attempt,
      referenceImage := referenceImage, userImages := userImages,
      referenceImages :=
        if env.providerType = "image_api" then refImagesArg userImages referenceImage
        else none }
  let r : Except String (String × Bytes) :=
    match env.gen page.index attempt with
    | .exc msg => .error msg
    | .ok data =>
      if data.isEmpty then .error "生成器返回空数据"
      else
        let filename := toString page.index ++ ".png"
        match saveImage env data filename taskId with
        | .error e => .error e
        | .ok _ => .ok (filename, data)
  (r, c)

/-- Aggregate result of `_generate_single_image`: the returned tuple, the
back-off sleeps performed between attempts, and the generator invocations. -/
structure SingleOut where
  result : SingleResult
  sleeps : List Nat
  calls : List CallRec

/-- The retry loop `for attempt in range(max_retries)` of
`_generate_single_image`, with `remaining` the number of attempts left
(`remaining = AUTO_RETRY_COUNT - attempt` at every call): on failure it
retries after sleeping `2 ** attempt` seconds while `attempt <
max_retries - 1`, i.e. while `remaining ≠ 1`; the `remaining = 0` base case
is the unreachable `return` after the loop. -/
def runAttempts (env : Env) (page : Page) (taskId : String)
    (referenceImage : Option Bytes) (userImages : Option (List Bytes)) :
    Nat → Nat → SingleOut
  | _, 0 => ⟨⟨page.index, false, none, some "超过最大重试次数", none⟩, [], []⟩
  | attempt, remaining + 1 =>
    let a := attemptOnce env page taskId referenceImage userImages attempt
    match a.1 with
    | .ok (fn, data) => ⟨⟨page.index, true, some fn, none, some data⟩, [], [a.2]⟩
    | .error msg =>
      if remaining = 0 then
        ⟨⟨page.index, false, none, some msg, none⟩, [], [a.2]⟩
      else
        let rest := runAttempts env page taskId referenceImage userImages (attempt + 1) remaining
        ⟨rest.result, 2 ^ attempt :: rest.sleeps, a.2 :: rest.calls⟩

/-- `ImageService._generate_single_image` (the spec's `generate_one`). -/
def generateSingleImage (env : Env) (page : Page) (taskId : String)
    (referenceImage : Option Bytes) (userImages : Option (List Bytes)) : SingleOut :=
  runAttempts env page taskId referenceImage userImages 0 AUTO_RETRY_COUNT

/-- Events yielded by the service generators (the SSE payloads). -/
inductive Event where
  | progress (index : Option Nat) (status : String) (phase : Option String)
  | complete (index : Nat) (imageUrl : String) (phase : Option String)
  | error (index : Nat) (message : Option String) (retryable : Bool) (phase : Option String)
  | finish (success : Bool) (taskId : String) (images : List String) (total : Nat)
      (completed : Nat) (failed : Nat) (failedIndices : List Nat)
  | retryStart (total : Nat)
  | retryFinish (success : Bool) (total : Nat) (completed : Nat) (failed : Nat)
deriving DecidableEq, Repr

/-- The per-task entry of `ImageService._task_states`. -/
structure GState where
  pages : List Page
  generated : List (Nat × String)
  failed : List (Nat × String)
  coverImage : Option Bytes
  fullOutline : String
  userImages : Option (List Bytes)
  userTopic : String
deriving DecidableEq, Repr

/-- Phase-zero preparation: `compressed_user_images` is `None` unless the
user images are truthy, in which case each is compressed to 200 KB. -/
def compressUserImages (userImages : Option (List Bytes)) : Option (List Bytes) :=
  match userImages with
  | none => none
  | some us => if us.isEmpty then none else some (us.map (fun b => compress_image b 200))

/-- Cover/content partition of `generate_images`: the loop keeps the last
page typed `cover` and collects the rest in order; with no cover-typed page
the first page (if any) is promoted. -/
def splitCover (pages : List Page) : Option Page × List Page :=
  let covers := pages.filter (fun p => p.ptype == "cover")
  let others := pages.filter (fun p => !(p.ptype == "cover"))
  match covers.getLast? with
  | some c => (some c, others)
  | none =>
    match pages with
    | [] => (none, [])
    | p :: rest => (some p, rest)

/-- `error or "Unknown error"` (Python truthiness: `None` and `""` both fall
back). -/
def coverFailMsg (err : Option String) : String :=
  match err with
  | none => "Unknown error"
  | some e => if e = "" then "Unknown error" else e

/-- Output of the cover phase of `generate_images`. -/
structure CoverOut where
  events : List Event
  genImgs : List String
  failPgs : List Page
  gen : List (Nat × String)
  fail : List (Nat × String)
  coverImage : Option Bytes
  calls : List CallRec

/-- Phase one of `generate_images`: emit the cover `progress`, run
`_generate_single_image(cover, reference_image=None, ...)`; on
`success and image_data` record the filename, compress the cover bytes to
200 KB into the task state and emit `complete`; otherwise record the failure
and emit a retryable `error`. -/
def coverPhase (env : Env) (taskId : String) (ui : Option (List Bytes)) :
    Option Page → CoverOut
  | none => ⟨[], [], [], [], [], none, []⟩
  | some cp =>
    let o := generateSingleImage env cp taskId none ui
    let res := o.result
    let prog : Event := .progress (some cp.index) "generating" (some "cover")
    if res.success && (match res.imageData with | some d => !d.isEmpty | none => false) then
      let fn := res.filename.getD ""
      let d := res.imageData.getD []
      ⟨[prog, .complete res.index ("/api/images/" ++ taskId ++ "/" ++ fn) (some "cover")],
       [fn], [], dictSet [] res.index fn, [], some (compress_image d 200), o.calls⟩
    else
      ⟨[prog, .error res.index res.error true (some "cover")],
       [], [cp], [], dictSet [] res.index (coverFailMsg res.error), none, o.calls⟩

/-- Output of the content phase of `generate_images`. -/
structure PhaseOut where
  events : List Event
  genImgs : List String
  failPgs : List Page
  gen : List (Nat × String)
  fail : List (Nat × String)
  calls : List CallRec

/-- Page-by-page content processing of `generate_images`, threading the
task-state maps.  With `emitProgress` (serial mode) each page's
`progress{status=generating}` immediately precedes its outcome event; in
parallel mode the progress events are emitted up front by the caller and the
argument list is the worker-completion order. -/
def processPages (env : Env) (taskId : String) (coverImg : Option Bytes)
    (ui : Option (List Bytes)) (emitProgress : Bool) :
    List Page → List (Nat × String) → List (Nat × String) → PhaseOut
  | [], g, f => ⟨[], [], [], g, f, []⟩
  | p :: ps, g, f =>
    let o := generateSingleImage env p taskId coverImg ui
    let res := o.result
    let pre : List Event :=
      if emitProgress then [.progress (some p.index) "generating" (some "content")] else []
    if res.success then
      let fn := res.filename.getD ""
      let rest := processPages env taskId coverImg ui emitProgress ps (dictSet g res.index fn) f
      ⟨pre ++ (Event.complete res.index ("/api/images/" ++ taskId ++ "/" ++ fn) (some "content")) :: rest.events,
       fn :: rest.genImgs, rest.failPgs, rest.gen, rest.fail, o.calls ++ rest.calls⟩
    else
      let rest := processPages env taskId coverImg ui emitProgress ps g
        (dictSet f res.index (res.error.getD ""))
      ⟨pre ++ (Event.error res.index res.error true (some "content")) :: rest.events,
       rest.genImgs, p :: rest.failPgs, rest.gen, rest.fail, o.calls ++ rest.calls⟩

/-- Result of a full `generate_images` call: the yielded event sequence, the
final task state, and the generator invocations of each phase. -/
structure RunResult where
  events : List Event
  state : GState
  coverCalls : List CallRec
  contentCalls : List CallRec

/-- Phase two of `generate_images`, guarded by `if other_pages:`.  Thread
scheduling of the `high_concurrency` branch is abstracted by `sched`, which
turns the submitted content pages into their worker-completion order (the
`as_completed` order); the per-page `generating` progress events are emitted
up front in submission order.  The serial branch processes pages in list
order with interleaved progress events.  The defensive `except`-branch around
`future.result()` is dead in this model because `_generate_single_image`
returns a tuple rather than raising. -/
def contentPhase (env : Env) (taskId : String) (ci : Option Bytes)
    (ui : Option (List Bytes)) (highConcurrency : Bool)
    (sched : List Page → List Page) (otherPages : List Page)
    (g f : List (Nat × String)) : PhaseOut :=
  if otherPages.isEmpty then ⟨[], [], [], g, f, []⟩
  else if highConcurrency then
    let po := processPages env taskId ci ui false (sched otherPages) g f
    { po with events :=
        Event.progress none "batch_start" (some "content") ::
          (otherPages.map (fun p => Event.progress (some p.index) "generating" (some "content"))
            ++ po.events) }
  else
    let po := processPages env taskId ci ui true otherPages g f
    { po with events := Event.progress none "batch_start" (some "content") :: po.events }

/-- `ImageService.generate_images`: partition, cover phase, content phase,
one terminal `finish` event aggregated from the `generated_images` and
`failed_pages` accumulators. -/
def generateImages (env : Env) (pages : List Page) (taskId : String)
    (fullOutline : String) (userImages : Option (List Bytes)) (userTopic : String)
    (highConcurrency : Bool) (sched : List Page → List Page) : RunResult :=
  let total := pages.length
  let ui := compressUserImages userImages
  let parts := splitCover pages
  let co := coverPhase env taskId ui parts.1
  let contentOut := contentPhase env taskId co.coverImage ui highConcurrency sched parts.2 co.gen co.fail
  let generatedImages := co.genImgs ++ contentOut.genImgs
  let failedPages := co.failPgs ++ contentOut.failPgs
  { events := co.events ++ contentOut.events ++
      [Event.finish failedPages.isEmpty taskId generatedImages total
        generatedImages.length failedPages.length (failedPages.map (fun p => p.index))],
    state := ⟨pages, contentOut.gen, contentOut.fail, co.coverImage, fullOutline, ui, userTopic⟩,
    coverCalls := co.calls,
    contentCalls := contentOut.calls }

/-- Result dict of `retry_single_image`. -/
structure RetryResult where
  success : Bool
  index : Nat
  imageUrl : Option String
  error : Option String
  retryable : Option Bool
deriving DecidableEq, Repr

/-- `ImageService.retry_single_image` acting on the (possibly absent) task
state for `task_id`: the cover reference and user images are read from the
state when present; on success the index is upserted into `generated` and
deleted from `failed`; on failure the state is untouched. -/
def retrySingleImage (env : Env) (taskId : String) (page : Page) (useReference : Bool)
    (fullOutline : String) (userTopic : String) (st : Option GState) :
    RetryResult × Option GState :=
  let referenceImage :=
    match st with
    | some s => if useReference then s.coverImage else none
    | none => none
  let userImages :=
    match st with
    | some s => s.userImages
    | none => none
  let o := generateSingleImage env page taskId referenceImage userImages
  let res := o.result
  if res.success then
    let fn := res.filename.getD ""
    (⟨true, res.index, some ("/api/images/" ++ taskId ++ "/" ++ fn), none, none⟩,
     match st with
     | some s => some { s with generated := dictSet s.generated res.index fn,
                               failed := dictDel s.failed res.index }
     | none => none)
  else
    (⟨false, res.index, none, res.error, some true⟩, st)

/-- Accumulator of the `retry_failed_images` completion loop. -/
structure RetryAcc where
  events : List Event
  st : Option GState
  successCount : Nat
  failedCount : Nat

/-- One `as_completed` iteration of `retry_failed_images`. -/
def retryStep (env : Env) (taskId : String) (refImg : Option Bytes)
    (acc : RetryAcc) (page : Page) : RetryAcc :=
  let o := generateSingleImage env page taskId refImg none
  let res := o.result
  if res.success then
    let fn := res.filename.getD ""
    { events := acc.events ++ [Event.complete res.index ("/api/images/" ++ taskId ++ "/" ++ fn) none],
      st := match acc.st with
        | some s => some { s with generated := dictSet s.generated res.index fn,
                                  failed := dictDel s.failed res.index }
        | none => none,
      successCount := acc.successCount + 1,
      failedCount := acc.failedCount }
  else
    { events := acc.events ++ [Event.error res.index res.error true none],
      st := acc.st,
      successCount := acc.successCount,
      failedCount := acc.failedCount + 1 }

/-- `ImageService.retry_failed_images`: cover reference from the task state,
user images not forwarded, a `retry_start` banner, per-page outcomes in
worker-completion order (`sched`), and a closing `retry_finish`. -/
def retryFailedImages (env : Env) (taskId : String) (pages : List Page)
    (st : Option GState) (sched : List Page → List Page) :
    List Event × Option GState :=
  let refImg := match st with | some s => s.coverImage | none => none
  let start : RetryAcc := ⟨[Event.retryStart pages.length], st, 0, 0⟩
  let acc := (sched pages).foldl (retryStep env taskId refImg) start
  (acc.events ++ [Event.retryFinish (acc.failedCount == 0) pages.length acc.successCount acc.failedCount],
   acc.st)

/-- Python `str.startswith`, over the underlying character list. -/
def strStartsWith (s pre : String) : Bool :=
  pre.data.isPrefixOf s.data

/-- Python `str.endswith`, over the underlying character list. -/
def strEndsWith (s suf : String) : Bool :=
  suf.data.reverse.isPrefixOf s.data.reverse

/-- File filter of `HistoryService.scan_and_sync_task_images`: keep image
files, excluding thumbnails. -/
def isImageFile (filename : String) : Bool :=
  !(strStartsWith filename "thumb_") &&
    (strEndsWith filename ".png" || strEndsWith filename ".jpg" || strEndsWith filename ".jpeg")

/-- Sort key of the scan: the integer prefix of the filename, 999 on parse
failure (`int(filename.split('.')[0])` with a bare `except`). -/
def scanKey (filename : String) : Nat :=
  (((filename.splitOn ".").head?.getD "").toNat?).getD 999

/-- The scanned, sorted image list of `scan_and_sync_task_images` applied to
a directory listing. -/
def scanImageFiles (listing : List String) : List String :=
  (listing.filter isImageFile).mergeSort (fun a b => scanKey a ≤ scanKey b)

/-- Status projection of `scan_and_sync_task_images` (every branch of the
`if/elif/else` overwrites the previous status). -/
def syncStatus (expectedCount actualCount : Nat) : String :=
  if actualCount = 0 then "draft"
  else if actualCount ≥ expectedCount then "completed"
  else "partial"

/-- Finish-event discriminator. -/
def Event.isFinishB : Event → Bool
  | .finish _ _ _ _ _ _ _ => true
  | _ => false

/-- `progress{index, status=generating}` discriminator for a given index. -/
def isGeneratingFor (idx : Nat) : Event → Bool
  | .progress i s _ => i == some idx && s == "generating"
  | _ => false

/-- Terminal (`complete` or `error`) event for a given index. -/
def isCompletionFor (idx : Nat) : Event → Bool
  | .complete i _ _ => i == idx
  | .error i _ _ _ => i == idx
  | _ => false

/-- Terminal event of the cover phase. -/
def isCoverCompletion : Event → Bool
  | .complete _ _ ph => ph == some "cover"
  | .error _ _ _ ph => ph == some "cover"
  | _ => false

/-- Terminal event of the content phase. -/
def isContentCompletion : Event → Bool
  | .complete _ _ ph => ph == some "content"
  | .error _ _ _ ph => ph == some "content"
  | _ => false

/-- Ordering predicate on event sequences: every `q`-event is strictly
preceded by some `p`-event. -/
def Precedes (l : List Event) (p q : Event → Bool) : Prop :=
  ∀ j, ∀ hj : j < l.length, q (l.get ⟨j, hj⟩) = true →
    ∃ i, ∃ hi : i < l.length, i < j ∧ p (l.get ⟨i, hi⟩) = true

/-- Task-state invariant of claim C3: the `generated` and `failed` maps are
key-disjoint and every key is the index of some page of the task. -/
def StateInv (st : GState) : Prop :=
  (∀ k ∈ st.generated.map Prod.fst, k ∉ st.failed.map Prod.fst) ∧
  (∀ k ∈ st.generated.map Prod.fst ++ st.failed.map Prod.fst, ∃ p ∈ st.pages, p.index = k)

/-- Unconfigured storage fixture (`_validate_config()` false, `s3_client`
stays `None`). -/
def storageUnconfigured : StorageService := ⟨none, ⟨"", none, ""⟩⟩

/-- Fixture: environment whose generator always raises. -/
def envAllFail : Env := ⟨"google_genai", fun _ _ => .exc "boom", storageUnconfigured⟩

/-- Fixture: environment whose generator always returns one byte. -/
def envAllOk : Env := ⟨"google_genai", fun _ _ => .ok [7], storageUnconfigured⟩

/-- Fixture: identity completion order for the worker pool. -/
def idSched : List Page → List Page := fun l => l

/-! Helper lemmas: association-list dictionaries. -/

theorem dictHas_iff_mem_keys (d : List (Nat × String)) (k : Nat) :
    dictHas d k = true ↔ k ∈ d.map Prod.fst := by
  simp [dictHas, List.any_eq_true, List.mem_map]

theorem dictSet_fresh (d : List (Nat × String)) (k : Nat) (v : String)
    (h : k ∉ d.map Prod.fst) : dictSet d k v = d ++ [(k, v)] := by
  cases hb : (d.any fun q => q.1 == k) with
  | false => unfold dictSet; simp [hb]
  | true => exact absurd ((dictHas_iff_mem_keys d k).mp hb) h

theorem keys_dictSet_of_mem (d : List (Nat × String)) (k : Nat) (v : String)
    (h : k ∈ d.map Prod.fst) :
    (dictSet d k v).map Prod.fst = d.map Prod.fst := by
  have hany : (d.any fun q => q.1 == k) = true := (dictHas_iff_mem_keys d k).mpr h
  unfold dictSet
  simp only [hany, if_true]
  rw [List.map_map]
  apply List.map_congr_left
  intro q _
  by_cases hq : q.1 = k
  · simp [Function.comp, hq]
  · simp [Function.comp, hq]

theorem mem_keys_dictSet (d : List (Nat × String)) (k j : Nat) (v : String) :
    j ∈ (dictSet d k v).map Prod.fst ↔ (j ∈ d.map Prod.fst ∨ j = k) := by
  by_cases h : k ∈ d.map Prod.fst
  · rw [keys_dictSet_of_mem d k v h]
    constructor
    · exact Or.inl
    · rintro (hj | rfl)
      · exact hj
      · exact h
  · rw [dictSet_fresh d k v h]
    simp

theorem mem_keys_dictDel (d : List (Nat × String)) (k j : Nat) :
    j ∈ (dictDel d k).map Prod.fst ↔ (j ∈ d.map Prod.fst ∧ j ≠ k) := by
  simp only [dictDel, List.mem_map, List.mem_filter, decide_eq_true_eq]
  constructor
  · rintro ⟨q, ⟨hq, hne⟩, rfl⟩
    exact ⟨⟨q, hq, rfl⟩, hne⟩
  · rintro ⟨⟨q, hq, rfl⟩, hne⟩
    exact ⟨q, ⟨hq, hne⟩, rfl⟩

theorem length_filter_split {α : Type} (p : α → Bool) (l : List α) :
    (l.filter p).length + (l.filter (fun a => !(p a))).length = l.length := by
  induction l with
  | nil => simp
  | cons a l ih =>
    by_cases h : p a <;> simp [List.filter_cons, h] <;> omega

/-! Helper lemmas: `_generate_single_image`. -/

theorem attemptOnce_snd (env : Env) (page : Page) (taskId : String)
    (ref : Option Bytes) (ui : Option (List Bytes)) (attempt : Nat) :
    (attemptOnce env page taskId ref ui attempt).2 =
      ⟨page.index, attempt, ref, ui,
        if env.providerType = "image_api" then refImagesArg ui ref else none⟩ := rfl

theorem attemptOnce_ok_shape (env : Env) (page : Page) (taskId : String)
    (ref : Option Bytes) (ui : Option (List Bytes)) (attempt : Nat)
    (fn : String) (data : Bytes)
    (h : (attemptOnce env page taskId ref ui attempt).1 = .ok (fn, data)) :
    fn = toString page.index ++ ".png" ∧ data.isEmpty = false := by
  unfold attemptOnce at h
  rcases hg : env.gen page.index attempt with data' | m
  · simp only [hg] at h
    cases hde : data'.isEmpty with
    | true => simp [hde] at h
    | false =>
      simp only [hde, Bool.false_eq_true, if_false] at h
      rcases hs : saveImage env data' (toString page.index ++ ".png") taskId with e | ok
      · simp [hs] at h
      · simp only [hs] at h
        have h' := Except.ok.inj h
        have h1 : toString page.index ++ ".png" = fn := congrArg Prod.fst h'
        have h2 : data' = data := congrArg Prod.snd h'
        subst h1
        subst h2
        exact ⟨rfl, hde⟩
  · simp [hg] at h

theorem runAttempts_index (env : Env) (page : Page) (taskId : String)
    (ref : Option Bytes) (ui : Option (List Bytes)) :
    ∀ remaining attempt,
      (runAttempts env page taskId ref ui attempt remaining).result.index = page.index := by
  intro remaining
  induction remaining with
  | zero => intro attempt; rfl
  | succ r ih =>
    intro attempt
    rcases h : (attemptOnce env page taskId ref ui attempt).1 with m | v
    · by_cases hr : r = 0
      · simp [runAttempts, h, hr]
      · simp [runAttempts, h, hr, ih]
    · simp [runAttempts, h]

theorem runAttempts_shape (env : Env) (page : Page) (taskId : String)
    (ref : Option Bytes) (ui : Option (List Bytes)) :
    ∀ remaining attempt,
      ((runAttempts env page taskId ref ui attempt remaining).result.success = true →
        (runAttempts env page taskId ref ui attempt remaining).result.filename
            = some (toString page.index ++ ".png") ∧
        (runAttempts env page taskId ref ui attempt remaining).result.error = none ∧
        ∃ d, (runAttempts env page taskId ref ui attempt remaining).result.imageData = some d ∧
          d.isEmpty = false) ∧
      ((runAttempts env page taskId ref ui attempt remaining).result.success = false →
        (runAttempts env page taskId ref ui attempt remaining).result.filename = none ∧
        (runAttempts env page taskId ref ui attempt remaining).result.imageData = none ∧
        ((runAttempts env page taskId ref ui attempt remaining).result.error).isSome = true) := by
  intro remaining
  induction remaining with
  | zero =>
    intro attempt
    exact ⟨fun hs => by simp [runAttempts] at hs, fun _ => ⟨rfl, rfl, rfl⟩⟩
  | succ r ih =>
    intro attempt
    rcases h : (attemptOnce env page taskId ref ui attempt).1 with m | v
    · by_cases hr : r = 0
      · refine ⟨fun hs => ?_, fun _ => ?_⟩
        · simp [runAttempts, h, hr] at hs
        · simp [runAttempts, h, hr]
      · constructor
        · intro hs
          simp only [runAttempts, h, hr, if_false] at hs ⊢
          exact (ih (attempt + 1)).1 hs
        · intro hs
          simp only [runAttempts, h, hr, if_false] at hs ⊢
          exact (ih (attempt + 1)).2 hs
    · obtain ⟨fn, data⟩ := v
      obtain ⟨h1, h2⟩ := attemptOnce_ok_shape env page taskId ref ui attempt fn data h
      refine ⟨fun _ => ?_, fun hs => ?_⟩
      · subst h1
        refine ⟨?_, ?_, data, ?_, h2⟩ <;> simp [runAttempts, h]
      · simp [runAttempts, h] at hs

theorem runAttempts_calls_mem (env : Env) (page : Page) (taskId : String)
    (ref : Option Bytes) (ui : Option (List Bytes)) :
    ∀ remaining attempt,
      ∀ c ∈ (runAttempts env page taskId ref ui attempt remaining).calls,
        c.index = page.index ∧ c.referenceImage = ref ∧ c.userImages = ui ∧
        c.referenceImages =
          (if env.providerType = "image_api" then refImagesArg ui ref else none) := by
  intro remaining
  induction remaining with
  | zero => intro attempt c hc; simp [runAttempts] at hc
  | succ r ih =>
    intro attempt c hc
    rcases h : (attemptOnce env page taskId ref ui attempt).1 with m | v
    · by_cases hr : r = 0
      · simp only [runAttempts, h, hr, if_true] at hc
        simp at hc
        subst hc
        rw [attemptOnce_snd]
        exact ⟨rfl, rfl, rfl, rfl⟩
      · simp only [runAttempts, h, hr, if_false] at hc
        simp at hc
        rcases hc with hc | hc
        · subst hc
          rw [attemptOnce_snd]
          exact ⟨rfl, rfl, rfl, rfl⟩
        · exact ih (attempt + 1) c hc
    · simp only [runAttempts, h] at hc
      simp at hc
      subst hc
      rw [attemptOnce_snd]
      exact ⟨rfl, rfl, rfl, rfl⟩

theorem runAttempts_calls_ne (env : Env) (page : Page) (taskId : String)
    (ref : Option Bytes) (ui : Option (List Bytes)) :
    ∀ remaining attempt, remaining ≠ 0 →
      (runAttempts env page taskId ref ui attempt remaining).calls ≠ [] := by
  intro remaining
  induction remaining with
  | zero => intro attempt h; exact absurd rfl h
  | succ r _ =>
    intro attempt _
    rcases h : (attemptOnce env page taskId ref ui attempt).1 with m | v
    · by_cases hr : r = 0
      · simp [runAttempts, h, hr]
      · simp [runAttempts, h, hr]
    · simp [runAttempts, h]

theorem runAttempts_count (env : Env) (page : Page) (taskId : String)
    (ref : Option Bytes) (ui : Option (List Bytes)) :
    ∀ remaining attempt,
      (runAttempts env page taskId ref ui attempt remaining).calls.length ≤ remaining ∧
      (runAttempts env page taskId ref ui attempt remaining).sleeps =
        (List.range ((runAttempts env page taskId ref ui attempt remaining).calls.length - 1)).map
          (fun k => 2 ^ (attempt + k)) := by
  intro remaining
  induction remaining with
  | zero => intro attempt; exact ⟨Nat.le_refl 0, rfl⟩
  | succ r ih =>
    intro attempt
    rcases h : (attemptOnce env page taskId ref ui attempt).1 with m | v
    · by_cases hr : r = 0
      · constructor
        · simp [runAttempts, h, hr]
        · simp [runAttempts, h, hr, List.range_zero]
      · obtain ⟨ihl, ihs⟩ := ih (attempt + 1)
        have hne := runAttempts_calls_ne env page taskId ref ui r (attempt + 1) hr
        obtain ⟨c0, cs, hcs⟩ := List.exists_cons_of_ne_nil hne
        constructor
        · simp only [runAttempts, h, hr, if_false]
          simpa using Nat.succ_le_succ ihl
        · simp only [runAttempts, h, hr, if_false]
          rw [ihs, hcs]
          simp only [List.length_cons, Nat.add_sub_cancel]
          rw [List.range_succ_eq_map]
          simp only [List.map_cons, List.map_map]
          congr 1
          apply List.map_congr_left
          intro k _
          simp only [Function.comp_apply]
          congr 1
          omega
    · constructor
      · simp [runAttempts, h]
      · simp [runAttempts, h, List.range_zero]

theorem gsi_index (env : Env) (page : Page) (taskId : String)
    (ref : Option Bytes) (ui : Option (List Bytes)) :
    (generateSingleImage env page taskId ref ui).result.index = page.index :=
  runAttempts_index env page taskId ref ui AUTO_RETRY_COUNT 0

theorem gsi_success_shape (env : Env) (page : Page) (taskId : String)
    (ref : Option Bytes) (ui : Option (List Bytes))
    (h : (generateSingleImage env page taskId ref ui).result.success = true) :
    (generateSingleImage env page taskId ref ui).result.filename
        = some (toString page.index ++ ".png") ∧
    (generateSingleImage env page taskId ref ui).result.error = none ∧
    ∃ d, (generateSingleImage env page taskId ref ui).result.imageData = some d ∧
      d.isEmpty = false :=
  (runAttempts_shape env page taskId ref ui AUTO_RETRY_COUNT 0).1 h

theorem gsi_fail_shape (env : Env) (page : Page) (taskId : String)
    (ref : Option Bytes) (ui : Option (List Bytes))
    (h : (generateSingleImage env page taskId ref ui).result.success = false) :
    (generateSingleImage env page taskId ref ui).result.filename = none ∧
    (generateSingleImage env page taskId ref ui).result.imageData = none ∧
    ((generateSingleImage env page taskId ref ui).result.error).isSome = true :=
  (runAttempts_shape env page taskId ref ui AUTO_RETRY_COUNT 0).2 h

theorem gsi_calls_mem (env : Env) (page : Page) (taskId : String)
    (ref : Option Bytes) (ui : Option (List Bytes)) :
    ∀ c ∈ (generateSingleImage env page taskId ref ui).calls,
      c.index = page.index ∧ c.referenceImage = ref ∧ c.userImages = ui ∧
      c.referenceImages =
        (if env.providerType = "image_api" then refImagesArg ui ref else none) :=
  runAttempts_calls_mem env page taskId ref ui AUTO_RETRY_COUNT 0

theorem gsi_calls_ne (env : Env) (page : Page) (taskId : String)
    (ref : Option Bytes) (ui : Option (List Bytes)) :
    (generateSingleImage env page taskId ref ui).calls ≠ [] :=
  runAttempts_calls_ne env page taskId ref ui AUTO_RETRY_COUNT 0 (by decide)

/-! Helper lemmas: list positions and the `Precedes` ordering predicate. -/

theorem get_append_lt {α : Type} (A B : List α) (j : Nat) (h : j < (A ++ B).length)
    (hj : j < A.length) : (A ++ B).get ⟨j, h⟩ = A.get ⟨j, hj⟩ := by
  simp [List.get_eq_getElem, List.getElem_append_left, hj]

theorem get_append_ge {α : Type} (A B : List α) (j : Nat) (h : j < (A ++ B).length)
    (hj : A.length ≤ j) (hb : j - A.length < B.length) :
    (A ++ B).get ⟨j, h⟩ = B.get ⟨j - A.length, hb⟩ := by
  simp only [List.get_eq_getElem]
  rw [List.getElem_append_right hj]

theorem get_append_add {α : Type} (A B : List α) (i : Nat) (hi : i < B.length)
    (h : A.length + i < (A ++ B).length) :
    (A ++ B).get ⟨A.length + i, h⟩ = B.get ⟨i, hi⟩ := by
  rw [get_append_ge A B (A.length + i) h (by omega) (by omega)]
  simp only [List.get_eq_getElem]
  simp [Nat.add_sub_cancel_left]

theorem pos_lt_of_no_right {α : Type} (A B : List α) (P : α → Bool)
    (h : ∀ e ∈ B, ¬ P e = true) (j : Nat) (hj : j < (A ++ B).length)
    (hP : P ((A ++ B).get ⟨j, hj⟩) = true) : j < A.length := by
  by_contra hge
  push_neg at hge
  have hb : j - A.length < B.length := by
    have := hj
    rw [List.length_append] at this
    omega
  rw [get_append_ge A B j hj hge hb] at hP
  exact h _ (List.get_mem B _ _) hP

theorem pos_ge_of_no_left {α : Type} (A B : List α) (P : α → Bool)
    (h : ∀ e ∈ A, ¬ P e = true) (j : Nat) (hj : j < (A ++ B).length)
    (hP : P ((A ++ B).get ⟨j, hj⟩) = true) : A.length ≤ j := by
  by_contra hlt
  push_neg at hlt
  rw [get_append_lt A B j hj hlt] at hP
  exact h _ (List.get_mem A _ _) hP

theorem precedes_of_no_q (l : List Event) (p q : Event → Bool)
    (h : ∀ e ∈ l, ¬ q e = true) : Precedes l p q := by
  intro j hj hq
  exact absurd hq (h _ (List.get_mem l j hj))

theorem precedes_append_both {A B : List Event} {p q : Event → Bool}
    (hA : Precedes A p q) (hB : Precedes B p q) : Precedes (A ++ B) p q := by
  intro j hj hq
  by_cases hlt : j < A.length
  · rw [get_append_lt A B j hj hlt] at hq
    obtain ⟨i, hi, hij, hp⟩ := hA j hlt hq
    have hi' : i < (A ++ B).length := by
      rw [List.length_append]
      omega
    exact ⟨i, hi', hij, by rw [get_append_lt A B i hi' hi]; exact hp⟩
  · push_neg at hlt
    have hb : j - A.length < B.length := by
      have := hj
      rw [List.length_append] at this
      omega
    rw [get_append_ge A B j hj hlt hb] at hq
    obtain ⟨i, hi, hij, hp⟩ := hB (j - A.length) hb hq
    have hi' : A.length + i < (A ++ B).length := by
      rw [List.length_append]
      omega
    refine ⟨A.length + i, hi', by omega, ?_⟩
    rw [get_append_add A B i hi hi']
    exact hp

theorem precedes_append_mem {A B : List Event} {p q : Event → Bool}
    (hA : Precedes A p q)
    (hmem : ∀ e ∈ B, q e = true → ∃ x ∈ A, p x = true) : Precedes (A ++ B) p q := by
  intro j hj hq
  by_cases hlt : j < A.length
  · rw [get_append_lt A B j hj hlt] at hq
    obtain ⟨i, hi, hij, hp⟩ := hA j hlt hq
    have hi' : i < (A ++ B).length := by
      rw [List.length_append]
      omega
    exact ⟨i, hi', hij, by rw [get_append_lt A B i hi' hi]; exact hp⟩
  · push_neg at hlt
    have hb : j - A.length < B.length := by
      have := hj
      rw [List.length_append] at this
      omega
    rw [get_append_ge A B j hj hlt hb] at hq
    obtain ⟨x, hxB, hpx⟩ := hmem _ (List.get_mem B _ _) hq
    obtain ⟨n, hn⟩ := List.mem_iff_get.mp hxB
    have hn' : (n : Nat) < (A ++ B).length := by
      rw [List.length_append]
      omega
    refine ⟨n, hn', by omega, ?_⟩
    rw [get_append_lt A B n hn' n.isLt, hn]
    exact hpx

theorem precedes_pair (a b : Event) (p q : Event → Bool)
    (ha : q a = false) (h : q b = true → p a = true) : Precedes [a, b] p q := by
  intro j hj hq
  cases j with
  | zero =>
    have hqa : q a = true := hq
    rw [ha] at hqa
    exact absurd hqa (by simp)
  | succ j =>
    cases j with
    | zero =>
      have hqb : q b = true := hq
      exact ⟨0, by simp, by omega, h hqb⟩
    | succ j =>
      have h2 : j + 1 + 1 < 2 := hj
      omega

/-! Helper lemmas: the cover phase. -/

theorem coverPhase_success (env : Env) (tid : String) (ui : Option (List Bytes)) (cp : Page)
    (h : (generateSingleImage env cp tid none ui).result.success = true) :
    coverPhase env tid ui (some cp) =
      ⟨[Event.progress (some cp.index) "generating" (some "cover"),
        Event.complete cp.index ("/api/images/" ++ tid ++ "/" ++ (toString cp.index ++ ".png"))
          (some "cover")],
       [toString cp.index ++ ".png"], [],
       [(cp.index, toString cp.index ++ ".png")], [],
       some (compress_image (((generateSingleImage env cp tid none ui).result.imageData).getD []) 200),
       (generateSingleImage env cp tid none ui).calls⟩ := by
  obtain ⟨hf, _, d, hd, hde⟩ := gsi_success_shape env cp tid none ui h
  have hidx := gsi_index env cp tid none ui
  unfold coverPhase
  simp [h, hidx, hf, hd, hde, dictSet]

theorem coverPhase_fail (env : Env) (tid : String) (ui : Option (List Bytes)) (cp : Page)
    (h : (generateSingleImage env cp tid none ui).result.success = false) :
    coverPhase env tid ui (some cp) =
      ⟨[Event.progress (some cp.index) "generating" (some "cover"),
        Event.error cp.index ((generateSingleImage env cp tid none ui).result.error) true
          (some "cover")],
       [], [cp], [],
       [(cp.index, coverFailMsg ((generateSingleImage env cp tid none ui).result.error))],
       none, (generateSingleImage env cp tid none ui).calls⟩ := by
  have hidx := gsi_index env cp tid none ui
  unfold coverPhase
  simp [h, hidx, dictSet]

/-! Helper lemmas: the content phase. -/

theorem processPages_events_shape (env : Env) (tid : String) (ci : Option Bytes)
    (ui : Option (List Bytes)) (ep : Bool) :
    ∀ ps g f, ∀ e ∈ (processPages env tid ci ui ep ps g f).events,
      (∃ idx, e = Event.progress (some idx) "generating" (some "content")) ∨
      (∃ idx url, e = Event.complete idx url (some "content")) ∨
      (∃ idx msg, e = Event.error idx msg true (some "content")) := by
  intro ps
  induction ps with
  | nil => intro g f e he; simp [processPages] at he
  | cons p ps ih =>
    intro g f e he
    by_cases hs : (generateSingleImage env p tid ci ui).result.success
    · simp only [processPages, hs, if_true] at he
      rw [List.mem_append] at he
      rcases he with he | he
      · cases hep : ep <;> rw [hep] at he <;> simp at he
        subst he
        exact Or.inl ⟨p.index, rfl⟩
      · rw [List.mem_cons] at he
        rcases he with he | he
        · subst he
          exact Or.inr (Or.inl ⟨_, _, rfl⟩)
        · exact ih _ _ e he
    · rw [Bool.not_eq_true] at hs
      simp only [processPages, hs, Bool.false_eq_true, if_false] at he
      rw [List.mem_append] at he
      rcases he with he | he
      · cases hep : ep <;> rw [hep] at he <;> simp at he
        subst he
        exact Or.inl ⟨p.index, rfl⟩
      · rw [List.mem_cons] at he
        rcases he with he | he
        · subst he
          exact Or.inr (Or.inr ⟨_, _, rfl⟩)
        · exact ih _ _ e he

theorem processPages_calls_cover (env : Env) (tid : String) (ci : Option Bytes)
    (ui : Option (List Bytes)) (ep : Bool) :
    ∀ ps g f, ∀ p ∈ ps,
      ∃ c ∈ (processPages env tid ci ui ep ps g f).calls, c.index = p.index := by
  intro ps
  induction ps with
  | nil => intro g f p hp; simp at hp
  | cons p0 ps ih =>
    intro g f p hp
    rw [List.mem_cons] at hp
    by_cases hs : (generateSingleImage env p0 tid ci ui).result.success
    · simp only [processPages, hs, if_true]
      rcases hp with rfl | hp
      · obtain ⟨c, hc⟩ := List.exists_mem_of_ne_nil _ (gsi_calls_ne env p tid ci ui)
        obtain ⟨hidx, _⟩ := gsi_calls_mem env p tid ci ui c hc
        exact ⟨c, List.mem_append_left _ hc, hidx⟩
      · obtain ⟨c, hcmem, hcidx⟩ := ih _ _ p hp
        exact ⟨c, List.mem_append_right _ hcmem, hcidx⟩
    · rw [Bool.not_eq_true] at hs
      simp only [processPages, hs, Bool.false_eq_true, if_false]
      rcases hp with rfl | hp
      · obtain ⟨c, hc⟩ := List.exists_mem_of_ne_nil _ (gsi_calls_ne env p tid ci ui)
        obtain ⟨hidx, _⟩ := gsi_calls_mem env p tid ci ui c hc
        exact ⟨c, List.mem_append_left _ hc, hidx⟩
      · obtain ⟨c, hcmem, hcidx⟩ := ih _ _ p hp
        exact ⟨c, List.mem_append_right _ hcmem, hcidx⟩

theorem processPages_calls_mem (env : Env) (tid : String) (ci : Option Bytes)
    (ui : Option (List Bytes)) (ep : Bool) :
    ∀ ps g f, ∀ c ∈ (processPages env tid ci ui ep ps g f).calls,
      c.referenceImage = ci ∧ c.userImages = ui ∧
      c.referenceImages =
        (if env.providerType = "image_api" then refImagesArg ui ci else none) := by
  intro ps
  induction ps with
  | nil => intro g f c hc; simp [processPages] at hc
  | cons p ps ih =>
    intro g f c hc
    by_cases hs : (generateSingleImage env p tid ci ui).result.success
    · simp only [processPages, hs, if_true] at hc
      rw [List.mem_append] at hc
      rcases hc with hc | hc
      · obtain ⟨_, h2, h3, h4⟩ := gsi_calls_mem env p tid ci ui c hc
        exact ⟨h2, h3, h4⟩
      · exact ih _ _ c hc
    · rw [Bool.not_eq_true] at hs
      simp only [processPages, hs, Bool.false_eq_true, if_false] at hc
      rw [List.mem_append] at hc
      rcases hc with hc | hc
      · obtain ⟨_, h2, h3, h4⟩ := gsi_calls_mem env p tid ci ui c hc
        exact ⟨h2, h3, h4⟩
      · exact ih _ _ c hc

theorem processPages_keys_mono (env : Env) (tid : String) (ci : Option Bytes)
    (ui : Option (List Bytes)) (ep : Bool) :
    ∀ ps g f k,
      (k ∈ g.map Prod.fst → k ∈ ((processPages env tid ci ui ep ps g f).gen).map Prod.fst) ∧
      (k ∈ f.map Prod.fst → k ∈ ((processPages env tid ci ui ep ps g f).fail).map Prod.fst) := by
  intro ps
  induction ps with
  | nil => intro g f k; exact ⟨id, id⟩
  | cons p ps ih =>
    intro g f k
    by_cases hs : (generateSingleImage env p tid ci ui).result.success
    · simp only [processPages, hs, if_true]
      constructor
      · intro hk
        exact (ih _ _ k).1 ((mem_keys_dictSet _ _ _ _).mpr (Or.inl hk))
      · intro hk
        exact (ih _ _ k).2 hk
    · rw [Bool.not_eq_true] at hs
      simp only [processPages, hs, Bool.false_eq_true, if_false]
      constructor
      · intro hk
        exact (ih _ _ k).1 hk
      · intro hk
        exact (ih _ _ k).2 ((mem_keys_dictSet _ _ _ _).mpr (Or.inl hk))

theorem processPages_split (env : Env) (tid : String) (ci : Option Bytes)
    (ui : Option (List Bytes)) (ep : Bool) :
    ∀ ps g f,
      ps.Pairwise (fun a b => a.index ≠ b.index) →
      (∀ p ∈ ps, p.index ∉ g.map Prod.fst) →
      (∀ p ∈ ps, p.index ∉ f.map Prod.fst) →
      ∃ gN fN,
        (processPages env tid ci ui ep ps g f).gen = g ++ gN ∧
        (processPages env tid ci ui ep ps g f).fail = f ++ fN ∧
        gN.length = (processPages env tid ci ui ep ps g f).genImgs.length ∧
        fN.map Prod.fst = ((processPages env tid ci ui ep ps g f).failPgs).map (fun p => p.index) ∧
        (gN.map Prod.fst ++ fN.map Prod.fst).Perm (ps.map (fun p => p.index)) := by
  intro ps
  induction ps with
  | nil =>
    intro g f _ _ _
    exact ⟨[], [], by simp [processPages], by simp [processPages], by simp [processPages],
      by simp [processPages], by simp [processPages]⟩
  | cons p ps ih =>
    intro g f hdist hg hf
    have hdist' : ps.Pairwise (fun a b => a.index ≠ b.index) := (List.pairwise_cons.mp hdist).2
    have hhead : ∀ q ∈ ps, p.index ≠ q.index := (List.pairwise_cons.mp hdist).1
    have hidx := gsi_index env p tid ci ui
    by_cases hs : (generateSingleImage env p tid ci ui).result.success
    · obtain ⟨hfn, _, _⟩ := gsi_success_shape env p tid ci ui hs
      have hfresh : (generateSingleImage env p tid ci ui).result.index ∉ g.map Prod.fst := by
        rw [hidx]
        exact hg p (List.mem_cons_self p ps)
      have hset := dictSet_fresh g (generateSingleImage env p tid ci ui).result.index
        (((generateSingleImage env p tid ci ui).result.filename).getD "") hfresh
      have hg' : ∀ q ∈ ps, q.index ∉
          (dictSet g (generateSingleImage env p tid ci ui).result.index
            (((generateSingleImage env p tid ci ui).result.filename).getD "")).map Prod.fst := by
        intro q hq hmem
        rw [mem_keys_dictSet] at hmem
        rcases hmem with hmem | hmem
        · exact hg q (List.mem_cons_of_mem p hq) hmem
        · rw [hidx] at hmem
          exact hhead q hq hmem.symm
      have hf' : ∀ q ∈ ps, q.index ∉ f.map Prod.fst :=
        fun q hq => hf q (List.mem_cons_of_mem p hq)
      obtain ⟨gN, fN, h1, h2, h3, h4, h5⟩ := ih (dictSet g (generateSingleImage env p tid ci ui).result.index
        (((generateSingleImage env p tid ci ui).result.filename).getD "")) f hdist' hg' hf'
      refine ⟨((generateSingleImage env p tid ci ui).result.index,
          ((generateSingleImage env p tid ci ui).result.filename).getD "") :: gN, fN, ?_, ?_, ?_, ?_, ?_⟩
      · simp only [processPages, hs, if_true]
        rw [h1, hset, List.append_assoc]
        rfl
      · simp only [processPages, hs, if_true]
        exact h2
      · simp only [processPages, hs, if_true]
        simpa using h3
      · simp only [processPages, hs, if_true]
        exact h4
      · simp only [List.map_cons, List.map]
        rw [List.cons_append]
        rw [hidx]
        exact List.Perm.cons p.index h5
    · rw [Bool.not_eq_true] at hs
      have hfresh : (generateSingleImage env p tid ci ui).result.index ∉ f.map Prod.fst := by
        rw [hidx]
        exact hf p (List.mem_cons_self p ps)
      have hset := dictSet_fresh f (generateSingleImage env p tid ci ui).result.index
        (((generateSingleImage env p tid ci ui).result.error).getD "") hfresh
      have hf' : ∀ q ∈ ps, q.index ∉
          (dictSet f (generateSingleImage env p tid ci ui).result.index
            (((generateSingleImage env p tid ci ui).result.error).getD "")).map Prod.fst := by
        intro q hq hmem
        rw [mem_keys_dictSet] at hmem
        rcases hmem with hmem | hmem
        · exact hf q (List.mem_cons_of_mem p hq) hmem
        · rw [hidx] at hmem
          exact hhead q hq hmem.symm
      have hg' : ∀ q ∈ ps, q.index ∉ g.map Prod.fst :=
        fun q hq => hg q (List.mem_cons_of_mem p hq)
      obtain ⟨gN, fN, h1, h2, h3, h4, h5⟩ := ih g (dictSet f (generateSingleImage env p tid ci ui).result.index
        (((generateSingleImage env p tid ci ui).result.error).getD "")) hdist' hg' hf'
      refine ⟨gN, ((generateSingleImage env p tid ci ui).result.index,
          ((generateSingleImage env p tid ci ui).result.error).getD "") :: fN, ?_, ?_, ?_, ?_, ?_⟩
      · simp only [processPages, hs, Bool.false_eq_true, if_false]
        exact h1
      · simp only [processPages, hs, Bool.false_eq_true, if_false]
        rw [h2, hset, List.append_assoc]
        rfl
      · simp only [processPages, hs, Bool.false_eq_true, if_false]
        exact h3
      · simp only [processPages, hs, Bool.false_eq_true, if_false]
        simp only [List.map_cons]
        rw [h4, hidx]
      · simp only [List.map_cons, List.map]
        rw [hidx]
        exact List.Perm.trans List.perm_middle (List.Perm.cons p.index h5)

theorem processPages_completion_mem (env : Env) (tid : String) (ci : Option Bytes)
    (ui : Option (List Bytes)) (ep : Bool) :
    ∀ ps g f idx, ∀ e ∈ (processPages env tid ci ui ep ps g f).events,
      isCompletionFor idx e = true → ∃ p ∈ ps, p.index = idx := by
  intro ps
  induction ps with
  | nil => intro g f idx e he; simp [processPages] at he
  | cons p ps ih =>
    intro g f idx e he hq
    have hidx := gsi_index env p tid ci ui
    by_cases hs : (generateSingleImage env p tid ci ui).result.success
    · simp only [processPages, hs, if_true] at he
      rw [List.mem_append] at he
      rcases he with he | he
      · cases hep : ep <;> rw [hep] at he <;> simp at he
        subst he
        simp [isCompletionFor] at hq
      · rw [List.mem_cons] at he
        rcases he with rfl | he
        · simp only [isCompletionFor, beq_iff_eq] at hq
          exact ⟨p, List.mem_cons_self p ps, by rw [← hidx, hq]⟩
        · obtain ⟨q, hqm, hqe⟩ := ih _ _ idx e he hq
          exact ⟨q, List.mem_cons_of_mem p hqm, hqe⟩
    · rw [Bool.not_eq_true] at hs
      simp only [processPages, hs, Bool.false_eq_true, if_false] at he
      rw [List.mem_append] at he
      rcases he with he | he
      · cases hep : ep <;> rw [hep] at he <;> simp at he
        subst he
        simp [isCompletionFor] at hq
      · rw [List.mem_cons] at he
        rcases he with rfl | he
        · simp only [isCompletionFor, beq_iff_eq] at hq
          exact ⟨p, List.mem_cons_self p ps, by rw [← hidx, hq]⟩
        · obtain ⟨q, hqm, hqe⟩ := ih _ _ idx e he hq
          exact ⟨q, List.mem_cons_of_mem p hqm, hqe⟩

theorem precedes_cons_cons (a b : Event) (l : List Event) (p q : Event → Bool)
    (ha : q a = false) (hab : q b = true → p a = true) (hl : Precedes l p q) :
    Precedes (a :: b :: l) p q :=
  precedes_append_both (A := [a, b]) (B := l) (precedes_pair a b p q ha hab) hl

theorem processPages_precedes_serial (env : Env) (tid : String) (ci : Option Bytes)
    (ui : Option (List Bytes)) :
    ∀ ps g f idx,
      Precedes (processPages env tid ci ui true ps g f).events
        (isGeneratingFor idx) (isCompletionFor idx) := by
  intro ps
  induction ps with
  | nil =>
    intro g f idx
    exact precedes_of_no_q _ _ _ (by simp [processPages])
  | cons p ps ih =>
    intro g f idx
    have hidx := gsi_index env p tid ci ui
    by_cases hs : (generateSingleImage env p tid ci ui).result.success
    · simp only [processPages, hs, if_true, if_true, List.singleton_append]
      refine precedes_cons_cons _ _ _ _ _ rfl ?_ (ih _ _ idx)
      intro hq
      simp only [isCompletionFor, beq_iff_eq] at hq
      simp [isGeneratingFor, ← hq, hidx]
    · rw [Bool.not_eq_true] at hs
      simp only [processPages, hs, Bool.false_eq_true, if_false, if_true,
        List.singleton_append]
      refine precedes_cons_cons _ _ _ _ _ rfl ?_ (ih _ _ idx)
      intro hq
      simp only [isCompletionFor, beq_iff_eq] at hq
      simp [isGeneratingFor, ← hq, hidx]

theorem coverPhase_events_shape (env : Env) (tid : String) (ui : Option (List Bytes)) :
    ∀ cpo, ∀ e ∈ (coverPhase env tid ui cpo).events,
      (∃ i, e = Event.progress (some i) "generating" (some "cover")) ∨
      (∃ i url, e = Event.complete i url (some "cover")) ∨
      (∃ i msg, e = Event.error i msg true (some "cover")) := by
  intro cpo e he
  cases cpo with
  | none => simp [coverPhase] at he
  | some cp =>
    by_cases hs : (generateSingleImage env cp tid none ui).result.success
    · rw [coverPhase_success env tid ui cp hs] at he
      simp at he
      rcases he with rfl | rfl
      · exact Or.inl ⟨cp.index, rfl⟩
      · exact Or.inr (Or.inl ⟨_, _, rfl⟩)
    · rw [Bool.not_eq_true] at hs
      rw [coverPhase_fail env tid ui cp hs] at he
      simp at he
      rcases he with rfl | rfl
      · exact Or.inl ⟨cp.index, rfl⟩
      · exact Or.inr (Or.inr ⟨_, _, rfl⟩)

theorem coverPhase_precedes (env : Env) (tid : String) (ui : Option (List Bytes)) :
    ∀ cpo idx,
      Precedes (coverPhase env tid ui cpo).events (isGeneratingFor idx) (isCompletionFor idx) := by
  intro cpo idx
  cases cpo with
  | none => exact precedes_of_no_q _ _ _ (by simp [coverPhase])
  | some cp =>
    have hidx := gsi_index env cp tid none ui
    by_cases hs : (generateSingleImage env cp tid none ui).result.success
    · rw [coverPhase_success env tid ui cp hs]
      refine precedes_pair _ _ _ _ rfl ?_
      intro hq
      simp only [isCompletionFor, beq_iff_eq] at hq
      simp [isGeneratingFor, ← hq]
    · rw [Bool.not_eq_true] at hs
      rw [coverPhase_fail env tid ui cp hs]
      refine precedes_pair _ _ _ _ rfl ?_
      intro hq
      simp only [isCompletionFor, beq_iff_eq] at hq
      simp [isGeneratingFor, ← hq]

/-! Helper lemmas: the cover/content partition. -/

theorem indexNe_symm : Symmetric (fun a b : Page => a.index ≠ b.index) :=
  fun _ _ h => h.symm

theorem splitCover_spec (pages : List Page)
    (hdist : pages.Pairwise (fun a b => a.index ≠ b.index))
    (hcover : (pages.filter (fun p => p.ptype == "cover")).length ≤ 1)
    (hne : pages ≠ []) :
    ∃ cp, (splitCover pages).1 = some cp ∧ cp ∈ pages ∧
      (splitCover pages).2.length + 1 = pages.length ∧
      (∀ q ∈ (splitCover pages).2, q ∈ pages) ∧
      ((splitCover pages).2.Pairwise (fun a b => a.index ≠ b.index)) ∧
      (∀ q ∈ (splitCover pages).2, cp.index ≠ q.index) := by
  rcases hfc : pages.filter (fun p => p.ptype == "cover") with _ | ⟨c, rest⟩
  · rcases pages with _ | ⟨p, ps⟩
    · exact absurd rfl hne
    · have hsc : splitCover (p :: ps) = (some p, ps) := by
        simp [splitCover, hfc]
      rw [hsc]
      exact ⟨p, rfl, List.mem_cons_self p ps, by simp, fun q hq => List.mem_cons_of_mem p hq,
        (List.pairwise_cons.mp hdist).2, (List.pairwise_cons.mp hdist).1⟩
  · have hlen : (c :: rest).length ≤ 1 := hfc ▸ hcover
    have hrest : rest = [] := by
      rcases rest with _ | ⟨x, xs⟩
      · rfl
      · have h2 : xs.length + 1 + 1 ≤ 1 := hlen
        omega
    subst hrest
    have hsc : splitCover pages = (some c, pages.filter (fun p => !(p.ptype == "cover"))) := by
      simp [splitCover, hfc]
    have hcfil : c ∈ pages.filter (fun p => p.ptype == "cover") := by
      rw [hfc]
      exact List.mem_cons_self c []
    have hcmem : c ∈ pages := (List.mem_filter.mp hcfil).1
    have hctype : (c.ptype == "cover") = true := (List.mem_filter.mp hcfil).2
    rw [hsc]
    refine ⟨c, rfl, hcmem, ?_, ?_, ?_, ?_⟩
    · have hsplit := length_filter_split (fun p => p.ptype == "cover") pages
      rw [hfc] at hsplit
      simp at hsplit ⊢
      omega
    · intro q hq
      exact (List.mem_filter.mp hq).1
    · exact hdist.filter _
    · intro q hq
      have hqmem := (List.mem_filter.mp hq).1
      have hqnc := (List.mem_filter.mp hq).2
      have hne' : c ≠ q := by
        intro h
        rw [← h] at hqnc
        rw [hctype] at hqnc
        simp at hqnc
      exact hdist.forall indexNe_symm hcmem hqmem hne'

/-! Helper lemmas: the content phase dispatcher. -/

theorem contentPhase_events_shape (env : Env) (tid : String) (ci : Option Bytes)
    (ui : Option (List Bytes)) (hcon : Bool) (sched : List Page → List Page)
    (otherPages : List Page) (g f : List (Nat × String)) :
    ∀ e ∈ (contentPhase env tid ci ui hcon sched otherPages g f).events,
      (e = Event.progress none "batch_start" (some "content")) ∨
      (∃ i, e = Event.progress (some i) "generating" (some "content")) ∨
      (∃ i url, e = Event.complete i url (some "content")) ∨
      (∃ i msg, e = Event.error i msg true (some "content")) := by
  intro e he
  by_cases hemp : otherPages.isEmpty
  · simp [contentPhase, hemp] at he
  · cases hcon with
    | true =>
      simp only [contentPhase, hemp, Bool.false_eq_true, if_false, if_true] at he
      rw [List.mem_cons] at he
      rcases he with rfl | he
      · exact Or.inl rfl
      · rw [List.mem_append] at he
        rcases he with he | he
        · rw [List.mem_map] at he
          obtain ⟨p, _, rfl⟩ := he
          exact Or.inr (Or.inl ⟨p.index, rfl⟩)
        · rcases processPages_events_shape env tid ci ui false _ _ _ e he with h | h | h
          · exact Or.inr (Or.inl h)
          · exact Or.inr (Or.inr (Or.inl h))
          · exact Or.inr (Or.inr (Or.inr h))
    | false =>
      simp only [contentPhase, hemp, Bool.false_eq_true, if_false] at he
      rw [List.mem_cons] at he
      rcases he with rfl | he
      · exact Or.inl rfl
      · rcases processPages_events_shape env tid ci ui true _ _ _ e he with h | h | h
        · exact Or.inr (Or.inl h)
        · exact Or.inr (Or.inr (Or.inl h))
        · exact Or.inr (Or.inr (Or.inr h))

theorem contentPhase_completion_mem (env : Env) (tid : String) (ci : Option Bytes)
    (ui : Option (List Bytes)) (hcon : Bool) (sched : List Page → List Page)
    (hsched : ∀ l, (sched l).Perm l) (otherPages : List Page) (g f : List (Nat × String))
    (idx : Nat) :
    ∀ e ∈ (contentPhase env tid ci ui hcon sched otherPages g f).events,
      isCompletionFor idx e = true → ∃ p ∈ otherPages, p.index = idx := by
  intro e he hq
  by_cases hemp : otherPages.isEmpty
  · simp [contentPhase, hemp] at he
  · cases hcon with
    | true =>
      simp only [contentPhase, hemp, Bool.false_eq_true, if_false, if_true] at he
      rw [List.mem_cons] at he
      rcases he with rfl | he
      · simp [isCompletionFor] at hq
      · rw [List.mem_append] at he
        rcases he with he | he
        · rw [List.mem_map] at he
          obtain ⟨p, _, rfl⟩ := he
          simp [isCompletionFor] at hq
        · obtain ⟨p, hp, hpe⟩ := processPages_completion_mem env tid ci ui false _ _ _ idx e he hq
          exact ⟨p, ((hsched otherPages).mem_iff).mp hp, hpe⟩
    | false =>
      simp only [contentPhase, hemp, Bool.false_eq_true, if_false] at he
      rw [List.mem_cons] at he
      rcases he with rfl | he
      · simp [isCompletionFor] at hq
      · exact processPages_completion_mem env tid ci ui true _ _ _ idx e he hq

theorem contentPhase_precedes (env : Env) (tid : String) (ci : Option Bytes)
    (ui : Option (List Bytes)) (hcon : Bool) (sched : List Page → List Page)
    (hsched : ∀ l, (sched l).Perm l) (otherPages : List Page) (g f : List (Nat × String))
    (idx : Nat) :
    Precedes (contentPhase env tid ci ui hcon sched otherPages g f).events
      (isGeneratingFor idx) (isCompletionFor idx) := by
  by_cases hemp : otherPages.isEmpty
  · simp only [contentPhase, hemp, if_true]
    exact precedes_of_no_q _ _ _ (by simp)
  · cases hcon with
    | true =>
      simp only [contentPhase, hemp, Bool.false_eq_true, if_false, if_true]
      rw [show (Event.progress none "batch_start" (some "content") ::
          (otherPages.map (fun p => Event.progress (some p.index) "generating" (some "content"))
            ++ (processPages env tid ci ui false (sched otherPages) g f).events)) =
          ((Event.progress none "batch_start" (some "content") ::
            otherPages.map (fun p => Event.progress (some p.index) "generating" (some "content")))
            ++ (processPages env tid ci ui false (sched otherPages) g f).events) from rfl]
      refine precedes_append_mem (precedes_of_no_q _ _ _ ?_) ?_
      · intro e he
        rw [List.mem_cons] at he
        rcases he with rfl | he
        · simp [isCompletionFor]
        · rw [List.mem_map] at he
          obtain ⟨p, _, rfl⟩ := he
          simp [isCompletionFor]
      · intro e he hq
        obtain ⟨p, hp, hpe⟩ := processPages_completion_mem env tid ci ui false _ _ _ idx e he hq
        have hpo : p ∈ otherPages := ((hsched otherPages).mem_iff).mp hp
        refine ⟨Event.progress (some p.index) "generating" (some "content"), ?_, ?_⟩
        · exact List.mem_cons_of_mem _ (List.mem_map_of_mem _ hpo)
        · simp [isGeneratingFor, hpe]
    | false =>
      simp only [contentPhase, hemp, Bool.false_eq_true, if_false]
      rw [show (Event.progress none "batch_start" (some "content") ::
          (processPages env tid ci ui true otherPages g f).events) =
          ([Event.progress none "batch_start" (some "content")]
            ++ (processPages env tid ci ui true otherPages g f).events) from rfl]
      refine precedes_append_both (precedes_of_no_q _ _ _ ?_)
        (processPages_precedes_serial env tid ci ui otherPages g f idx)
      intro e he
      rw [List.mem_singleton] at he
      subst he
      simp [isCompletionFor]

theorem contentPhase_split (env : Env) (tid : String) (ci : Option Bytes)
    (ui : Option (List Bytes)) (hcon : Bool) (sched : List Page → List Page)
    (hsched : ∀ l, (sched l).Perm l) (otherPages : List Page) (g f : List (Nat × String))
    (hdist : otherPages.Pairwise (fun a b => a.index ≠ b.index))
    (hg : ∀ p ∈ otherPages, p.index ∉ g.map Prod.fst)
    (hf : ∀ p ∈ otherPages, p.index ∉ f.map Prod.fst) :
    ∃ gN fN,
      (contentPhase env tid ci ui hcon sched otherPages g f).gen = g ++ gN ∧
      (contentPhase env tid ci ui hcon sched otherPages g f).fail = f ++ fN ∧
      gN.length = (contentPhase env tid ci ui hcon sched otherPages g f).genImgs.length ∧
      fN.map Prod.fst =
        ((contentPhase env tid ci ui hcon sched otherPages g f).failPgs).map (fun p => p.index) ∧
      (gN.map Prod.fst ++ fN.map Prod.fst).Perm (otherPages.map (fun p => p.index)) := by
  by_cases hemp : otherPages.isEmpty
  · have hnil : otherPages = [] := List.isEmpty_iff.mp hemp
    subst hnil
    exact ⟨[], [], by simp [contentPhase], by simp [contentPhase], by simp [contentPhase],
      by simp [contentPhase], by simp [contentPhase]⟩
  · cases hcon with
    | true =>
      have hperm := hsched otherPages
      have hdist' : (sched otherPages).Pairwise (fun a b => a.index ≠ b.index) :=
        (hperm.pairwise_iff (fun h => Ne.symm h)).mpr hdist
      have hg' : ∀ p ∈ sched otherPages, p.index ∉ g.map Prod.fst :=
        fun p hp => hg p (hperm.mem_iff.mp hp)
      have hf' : ∀ p ∈ sched otherPages, p.index ∉ f.map Prod.fst :=
        fun p hp => hf p (hperm.mem_iff.mp hp)
      obtain ⟨gN, fN, h1, h2, h3, h4, h5⟩ :=
        processPages_split env tid ci ui false (sched otherPages) g f hdist' hg' hf'
      refine ⟨gN, fN, ?_, ?_, ?_, ?_, ?_⟩
      · simpa [contentPhase, hemp] using h1
      · simpa [contentPhase, hemp] using h2
      · simpa [contentPhase, hemp] using h3
      · simpa [contentPhase, hemp] using h4
      · exact h5.trans (hperm.map (fun p => p.index))
    | false =>
      obtain ⟨gN, fN, h1, h2, h3, h4, h5⟩ :=
        processPages_split env tid ci ui true otherPages g f hdist hg hf
      refine ⟨gN, fN, ?_, ?_, ?_, ?_, ?_⟩
      · simpa [contentPhase, hemp] using h1
      · simpa [contentPhase, hemp] using h2
      · simpa [contentPhase, hemp] using h3
      · simpa [contentPhase, hemp] using h4
      · exact h5

theorem contentPhase_calls_mem (env : Env) (tid : String) (ci : Option Bytes)
    (ui : Option (List Bytes)) (hcon : Bool) (sched : List Page → List Page)
    (otherPages : List Page) (g f : List (Nat × String)) :
    ∀ c ∈ (contentPhase env tid ci ui hcon sched otherPages g f).calls,
      c.referenceImage = ci ∧ c.userImages = ui ∧
      c.referenceImages =
        (if env.providerType = "image_api" then refImagesArg ui ci else none) := by
  intro c hc
  by_cases hemp : otherPages.isEmpty
  · simp [contentPhase, hemp] at hc
  · cases hcon with
    | true =>
      simp only [contentPhase, hemp, Bool.false_eq_true, if_false, if_true] at hc
      exact processPages_calls_mem env tid ci ui false _ _ _ c hc
    | false =>
      simp only [contentPhase, hemp, Bool.false_eq_true, if_false] at hc
      exact processPages_calls_mem env tid ci ui true _ _ _ c hc

theorem contentPhase_calls_cover (env : Env) (tid : String) (ci : Option Bytes)
    (ui : Option (List Bytes)) (hcon : Bool) (sched : List Page → List Page)
    (hsched : ∀ l, (sched l).Perm l) (otherPages : List Page) (g f : List (Nat × String)) :
    ∀ p ∈ otherPages,
      ∃ c ∈ (contentPhase env tid ci ui hcon sched otherPages g f).calls,
        c.index = p.index := by
  intro p hp
  by_cases hemp : otherPages.isEmpty
  · rw [List.isEmpty_iff.mp hemp] at hp
    simp at hp
  · cases hcon with
    | true =>
      have hp' : p ∈ sched otherPages := ((hsched otherPages).mem_iff).mpr hp
      obtain ⟨c, hcm, hci⟩ := processPages_calls_cover env tid ci ui false (sched otherPages) g f p hp'
      refine ⟨c, ?_, hci⟩
      simpa [contentPhase, hemp] using hcm
    | false =>
      obtain ⟨c, hcm, hci⟩ := processPages_calls_cover env tid ci ui true otherPages g f p hp
      refine ⟨c, ?_, hci⟩
      simpa [contentPhase, hemp] using hcm

theorem contentPhase_keys_mono (env : Env) (tid : String) (ci : Option Bytes)
    (ui : Option (List Bytes)) (hcon : Bool) (sched : List Page → List Page)
    (otherPages : List Page) (g f : List (Nat × String)) (k : Nat) :
    (k ∈ g.map Prod.fst →
      k ∈ ((contentPhase env tid ci ui hcon sched otherPages g f).gen).map Prod.fst) ∧
    (k ∈ f.map Prod.fst →
      k ∈ ((contentPhase env tid ci ui hcon sched otherPages g f).fail).map Prod.fst) := by
  by_cases hemp : otherPages.isEmpty
  · constructor
    · intro hk
      simpa [contentPhase, hemp] using hk
    · intro hk
      simpa [contentPhase, hemp] using hk
  · cases hcon with
    | true =>
      constructor
      · intro hk
        have := (processPages_keys_mono env tid ci ui false (sched otherPages) g f k).1 hk
        simpa [contentPhase, hemp] using this
      · intro hk
        have := (processPages_keys_mono env tid ci ui false (sched otherPages) g f k).2 hk
        simpa [contentPhase, hemp] using this
    | false =>
      constructor
      · intro hk
        have := (processPages_keys_mono env tid ci ui true otherPages g f k).1 hk
        simpa [contentPhase, hemp] using this
      · intro hk
        have := (processPages_keys_mono env tid ci ui true otherPages g f k).2 hk
        simpa [contentPhase, hemp] using this

/-! Derived event-classification facts for the two phases. -/

theorem coverPhase_no_finish (env : Env) (tid : String) (ui : Option (List Bytes))
    (cpo : Option Page) :
    ∀ e ∈ (coverPhase env tid ui cpo).events, e.isFinishB = false := by
  intro e he
  rcases coverPhase_events_shape env tid ui cpo e he with ⟨i, rfl⟩ | ⟨i, url, rfl⟩ | ⟨i, msg, rfl⟩
  · rfl
  · rfl
  · rfl

theorem contentPhase_no_finish (env : Env) (tid : String) (ci : Option Bytes)
    (ui : Option (List Bytes)) (hcon : Bool) (sched : List Page → List Page)
    (otherPages : List Page) (g f : List (Nat × String)) :
    ∀ e ∈ (contentPhase env tid ci ui hcon sched otherPages g f).events,
      e.isFinishB = false := by
  intro e he
  rcases contentPhase_events_shape env tid ci ui hcon sched otherPages g f e he with
    rfl | ⟨i, rfl⟩ | ⟨i, url, rfl⟩ | ⟨i, msg, rfl⟩
  · rfl
  · rfl
  · rfl
  · rfl

theorem coverPhase_no_contentCompletion (env : Env) (tid : String)
    (ui : Option (List Bytes)) (cpo : Option Page) :
    ∀ e ∈ (coverPhase env tid ui cpo).events, isContentCompletion e = false := by
  intro e he
  rcases coverPhase_events_shape env tid ui cpo e he with ⟨i, rfl⟩ | ⟨i, url, rfl⟩ | ⟨i, msg, rfl⟩
  · rfl
  · simp [isContentCompletion]
  · simp [isContentCompletion]

theorem contentPhase_no_coverCompletion (env : Env) (tid : String) (ci : Option Bytes)
    (ui : Option (List Bytes)) (hcon : Bool) (sched : List Page → List Page)
    (otherPages : List Page) (g f : List (Nat × String)) :
    ∀ e ∈ (contentPhase env tid ci ui hcon sched otherPages g f).events,
      isCoverCompletion e = false := by
  intro e he
  rcases contentPhase_events_shape env tid ci ui hcon sched otherPages g f e he with
    rfl | ⟨i, rfl⟩ | ⟨i, url, rfl⟩ | ⟨i, msg, rfl⟩
  · rfl
  · rfl
  · simp [isCoverCompletion]
  · simp [isCoverCompletion]

theorem compress_image_le (d : Bytes) (kb : Nat) :
    (compress_image d kb).length ≤ kb * 1024 := by
  simp only [compress_image, List.length_take]
  exact Nat.min_le_left _ _

/-! Claim theorems. -/

/-- C2: in every invocation of `_generate_single_image` the generator is
attempted at most `AUTO_RETRY_COUNT = 3` times; the sleeps between
consecutive attempts are exactly `2 ^ attempt` seconds (1 s after the first
failure, 2 s after the second) with no sleep after the final failed attempt;
the returned tuple is `(index, True, filename, None, bytes)` on success and
`(index, False, None, message, None)` after the last failure. -/
theorem C2_retry_backoff (env : Env) (page : Page) (taskId : String)
    (ref : Option Bytes) (ui : Option (List Bytes)) :
    AUTO_RETRY_COUNT = 3 ∧
    (generateSingleImage env page taskId ref ui).calls.length ≤ AUTO_RETRY_COUNT ∧
    (generateSingleImage env page taskId ref ui).sleeps =
      (List.range ((generateSingleImage env page taskId ref ui).calls.length - 1)).map
        (fun a => 2 ^ a) ∧
    (generateSingleImage env page taskId ref ui).result.index = page.index ∧
    ((generateSingleImage env page taskId ref ui).result.success = true →
      (generateSingleImage env page taskId ref ui).result.filename
          = some (toString page.index ++ ".png") ∧
      (generateSingleImage env page taskId ref ui).result.error = none ∧
      ((generateSingleImage env page taskId ref ui).result.imageData).isSome = true) ∧
    ((generateSingleImage env page taskId ref ui).result.success = false →
      (generateSingleImage env page taskId ref ui).result.filename = none ∧
      (generateSingleImage env page taskId ref ui).result.imageData = none ∧
      ((generateSingleImage env page taskId ref ui).result.error).isSome = true) := by
  obtain ⟨hlen, hsleeps⟩ := runAttempts_count env page taskId ref ui AUTO_RETRY_COUNT 0
  refine ⟨rfl, hlen, ?_, gsi_index env page taskId ref ui, ?_, ?_⟩
  · unfold generateSingleImage
    rw [hsleeps]
    apply List.map_congr_left
    intro a _
    simp
  · intro hs
    obtain ⟨h1, h2, d, h3, _⟩ := gsi_success_shape env page taskId ref ui hs
    exact ⟨h1, h2, by rw [h3]; rfl⟩
  · exact gsi_fail_shape env page taskId ref ui

/-- Witness for C2 at a concrete always-failing generator: three attempts and
sleeps of exactly 1 s and 2 s. -/
theorem C2_retry_backoff_witness :
    AUTO_RETRY_COUNT = 3 ∧
    (generateSingleImage envAllFail ⟨1, "cover", "c"⟩ "t" none none).calls.length ≤ AUTO_RETRY_COUNT ∧
    (generateSingleImage envAllFail ⟨1, "cover", "c"⟩ "t" none none).sleeps =
      (List.range ((generateSingleImage envAllFail ⟨1, "cover", "c"⟩ "t" none none).calls.length - 1)).map
        (fun a => 2 ^ a) ∧
    (generateSingleImage envAllFail ⟨1, "cover", "c"⟩ "t" none none).result.index = (1 : Nat) ∧
    ((generateSingleImage envAllFail ⟨1, "cover", "c"⟩ "t" none none).result.success = true →
      (generateSingleImage envAllFail ⟨1, "cover", "c"⟩ "t" none none).result.filename
          = some (toString (1 : Nat) ++ ".png") ∧
      (generateSingleImage envAllFail ⟨1, "cover", "c"⟩ "t" none none).result.error = none ∧
      ((generateSingleImage envAllFail ⟨1, "cover", "c"⟩ "t" none none).result.imageData).isSome = true) ∧
    ((generateSingleImage envAllFail ⟨1, "cover", "c"⟩ "t" none none).result.success = false →
      (generateSingleImage envAllFail ⟨1, "cover", "c"⟩ "t" none none).result.filename = none ∧
      (generateSingleImage envAllFail ⟨1, "cover", "c"⟩ "t" none none).result.imageData = none ∧
      ((generateSingleImage envAllFail ⟨1, "cover", "c"⟩ "t" none none).result.error).isSome = true) :=
  C2_retry_backoff envAllFail ⟨1, "cover", "c"⟩ "t" none none

/-- C9: the status written by `scan_and_sync_task_images` is `draft` when zero
page images are present, `completed` when all outline pages are generated, and
`partial` otherwise (stated for scans where the image files do not outnumber
the outline pages). -/
theorem C9_sync_status (listing : List String) (expectedCount : Nat)
    (h : (scanImageFiles listing).length ≤ expectedCount) :
    syncStatus expectedCount (scanImageFiles listing).length =
      (if (scanImageFiles listing).length = 0 then "draft"
       else if (scanImageFiles listing).length = expectedCount then "completed"
       else "partial") := by
  unfold syncStatus
  split_ifs with h1 h2 h3 h4 <;> first | rfl | omega

/-- Witness for C9: a scan finding one page image out of two outline pages is
synchronized as `partial`. -/
theorem C9_sync_status_witness :
    syncStatus 2 (scanImageFiles ["1.png", "thumb_1.png", "notes.txt"]).length =
      (if (scanImageFiles ["1.png", "thumb_1.png", "notes.txt"]).length = 0 then "draft"
       else if (scanImageFiles ["1.png", "thumb_1.png", "notes.txt"]).length = 2 then "completed"
       else "partial") :=
  C9_sync_status ["1.png", "thumb_1.png", "notes.txt"] 2
    (by simp only [scanImageFiles, List.length_mergeSort]; decide)

/-- C6 counterexample: saving page 1 of task `t` uploads the thumbnail under
object key `t/thumb_1.png` with content type `image/jpeg`; no upload uses the
key `t/thumb_1.jpg` claimed by the specification. -/
theorem C6_counterexample :
    saveImage envAllOk [5] "1.png" "t" =
      .ok ("t/1.png",
        [⟨"t/1.png", "image/png", [5]⟩,
         ⟨"t/thumb_1.png", "image/jpeg", [5]⟩]) ∧
    "t/thumb_1.png" ≠ "t/thumb_1.jpg" :=
  ⟨rfl, by decide⟩

/-- C6 (amended): for a successfully generated page with index `i` of task
`t`, `_save_image` uploads the original bytes under object key `t/i.png` with
content type `image/png`, and a thumbnail compressed to at most 50 KB under
object key `t/thumb_i.png` — with a `.png` extension, not the `.jpg` the spec
names — with content type `image/jpeg`. -/
theorem C6_save_image_keys (env : Env) (d : Bytes) (tid : String) (idx : Nat)
    (ht : basename tid = tid) (key : String) (ups : List Upload)
    (h : saveImage env d (toString idx ++ ".png") tid = .ok (key, ups)) :
    key = tid ++ "/" ++ (toString idx ++ ".png") ∧
    ups = [⟨tid ++ "/" ++ (toString idx ++ ".png"), "image/png", d⟩,
           ⟨tid ++ "/" ++ ("thumb_" ++ (toString idx ++ ".png")), "image/jpeg",
             compress_image d 50⟩] ∧
    (compress_image d 50).length ≤ 50 * 1024 := by
  unfold saveImage at h
  rw [ht] at h
  dsimp only at h
  rcases h1 : upload_file env.storage d (tid ++ "/" ++ (toString idx ++ ".png")) "image/png"
    with e | u1
  · rw [h1] at h
    simp at h
  · rw [h1] at h
    dsimp only at h
    rcases h2 : upload_file env.storage (compress_image d 50)
        (tid ++ "/" ++ ("thumb_" ++ (toString idx ++ ".png"))) "image/jpeg" with e | u2
    · rw [h2] at h
      simp at h
    · rw [h2] at h
      dsimp only at h
      have h' := Except.ok.inj h
      exact ⟨(congrArg Prod.fst h').symm, (congrArg Prod.snd h').symm, compress_image_le d 50⟩

/-- Witness for C6 with the unconfigured storage fixture for task `t`, page 1. -/
theorem C6_save_image_keys_witness :
    "t/1.png" = "t" ++ "/" ++ (toString (1 : Nat) ++ ".png") ∧
    [(⟨"t/1.png", "image/png", [5]⟩ : Upload), ⟨"t/thumb_1.png", "image/jpeg", [5]⟩] =
      [⟨"t" ++ "/" ++ (toString (1 : Nat) ++ ".png"), "image/png", [5]⟩,
       ⟨"t" ++ "/" ++ ("thumb_" ++ (toString (1 : Nat) ++ ".png")), "image/jpeg",
         compress_image [5] 50⟩] ∧
    (compress_image [5] 50).length ≤ 50 * 1024 :=
  C6_save_image_keys envAllOk [5] "t" 1 (by decide)
    "t/1.png" [⟨"t/1.png", "image/png", [5]⟩, ⟨"t/thumb_1.png", "image/jpeg", [5]⟩]
    rfl

theorem splitCover_singleton (p : Page) : splitCover [p] = (some p, []) := by
  by_cases hp : (p.ptype == "cover") = true <;> simp [splitCover, List.filter_cons, hp]

/-- C10: with the object store unconfigured (`s3_client` is `None`),
`upload_file` returns the empty string for every input instead of raising;
`_save_image` therefore succeeds, and `generate_images` still emits a
`complete` event and records the page as generated although no artifact was
stored. -/
theorem C10_unconfigured_storage :
    (∀ (cfg : StorageCfg) (d : Bytes) (key ct : String),
      upload_file ⟨none, cfg⟩ d key ct = .ok "") ∧
    (∀ (env : Env) (d : Bytes) (fn tid : String), env.storage.client = none →
      saveImage env d fn tid =
        .ok (basename tid ++ "/" ++ fn,
          [⟨basename tid ++ "/" ++ fn, "image/png", d⟩,
           ⟨basename tid ++ "/" ++ ("thumb_" ++ fn), "image/jpeg", compress_image d 50⟩])) ∧
    (∀ (env : Env) (p : Page) (tid fo ut : String) (hcb : Bool)
       (sched : List Page → List Page) (d : Bytes),
      env.storage.client = none → env.gen p.index 0 = .ok d → d ≠ [] →
      (Event.complete p.index ("/api/images/" ++ tid ++ "/" ++ (toString p.index ++ ".png"))
          (some "cover")) ∈ (generateImages env [p] tid fo none ut hcb sched).events ∧
      p.index ∈ ((generateImages env [p] tid fo none ut hcb sched).state.generated).map Prod.fst) := by
  refine ⟨?_, ?_, ?_⟩
  · intro cfg d key ct
    rfl
  · intro env d fn tid hcl
    have hupl : ∀ dd key ct, upload_file env.storage dd key ct = Except.ok "" := by
      intro dd key ct
      unfold upload_file
      rw [hcl]
    simp [saveImage, hupl]
  · intro env p tid fo ut hcb sched d hcl hgen hdne
    have hupl : ∀ dd key ct, upload_file env.storage dd key ct = Except.ok "" := by
      intro dd key ct
      unfold upload_file
      rw [hcl]
    have hde : d.isEmpty = false := by
      cases d with
      | nil => exact absurd rfl hdne
      | cons a l => rfl
    have hao : (attemptOnce env p tid none none 0).1 = .ok (toString p.index ++ ".png", d) := by
      simp [attemptOnce, hgen, hde, saveImage, hupl]
    have hsucc : (generateSingleImage env p tid none none).result.success = true := by
      unfold generateSingleImage AUTO_RETRY_COUNT
      simp [runAttempts, hao]
    have hco := coverPhase_success env tid none p hsucc
    have hui : compressUserImages none = none := rfl
    constructor
    · show _ ∈ (generateImages env [p] tid fo none ut hcb sched).events
      simp only [generateImages, splitCover_singleton, hui, hco]
      simp [contentPhase]
    · simp only [generateImages, splitCover_singleton, hui, hco]
      simp [contentPhase]

/-- Witness for C10 at the unconfigured-storage fixture with a one-page task. -/
theorem C10_unconfigured_storage_witness :
    upload_file ⟨none, ⟨"b", none, "e"⟩⟩ [1] "k" "image/png" = .ok "" ∧
    saveImage envAllOk [1] "f.png" "t" =
      .ok (basename "t" ++ "/" ++ "f.png",
        [⟨basename "t" ++ "/" ++ "f.png", "image/png", [1]⟩,
         ⟨basename "t" ++ "/" ++ ("thumb_" ++ "f.png"), "image/jpeg", compress_image [1] 50⟩]) ∧
    (Event.complete 1 ("/api/images/" ++ "t" ++ "/" ++ (toString (1 : Nat) ++ ".png"))
        (some "cover")) ∈ (generateImages envAllOk [⟨1, "cover", "c"⟩] "t" "" none "" false idSched).events ∧
    (1 : Nat) ∈ ((generateImages envAllOk [⟨1, "cover", "c"⟩] "t" "" none "" false idSched).state.generated).map Prod.fst :=
  ⟨C10_unconfigured_storage.1 ⟨"b", none, "e"⟩ [1] "k" "image/png",
   C10_unconfigured_storage.2.1 envAllOk [1] "f.png" "t" rfl,
   (C10_unconfigured_storage.2.2 envAllOk ⟨1, "cover", "c"⟩ "t" "" "" false idSched [7]
      rfl rfl (by decide)).1,
   (C10_unconfigured_storage.2.2 envAllOk ⟨1, "cover", "c"⟩ "t" "" "" false idSched [7]
      rfl rfl (by decide)).2⟩

/-- C8: a `retry_single_image` call that succeeds returns
`{success: True, image_url: /api/images/{task}/{index}.png}`, upserts the
page's index into the task state's `generated` map and deletes it from
`failed` (a no-op when absent); a call that fails returns
`{success: False, error, retryable: True}` and leaves the task state
unchanged. -/
theorem C8_retry_single (env : Env) (tid : String) (page : Page) (useRef : Bool)
    (fo ut : String) (st : GState) :
    (((retrySingleImage env tid page useRef fo ut (some st)).1).success = true →
      ((retrySingleImage env tid page useRef fo ut (some st)).1).imageUrl
          = some ("/api/images/" ++ tid ++ "/" ++ (toString page.index ++ ".png")) ∧
      (retrySingleImage env tid page useRef fo ut (some st)).2 =
        some { st with
          generated := dictSet st.generated page.index (toString page.index ++ ".png"),
          failed := dictDel st.failed page.index } ∧
      page.index ∈ (dictSet st.generated page.index (toString page.index ++ ".png")).map Prod.fst ∧
      page.index ∉ (dictDel st.failed page.index).map Prod.fst) ∧
    (((retrySingleImage env tid page useRef fo ut (some st)).1).success = false →
      (retrySingleImage env tid page useRef fo ut (some st)).2 = some st ∧
      ((retrySingleImage env tid page useRef fo ut (some st)).1).retryable = some true ∧
      (((retrySingleImage env tid page useRef fo ut (some st)).1).error).isSome = true ∧
      ((retrySingleImage env tid page useRef fo ut (some st)).1).index = page.index) := by
  have hidx := gsi_index env page tid (if useRef then st.coverImage else none) st.userImages
  by_cases hs : (generateSingleImage env page tid
      (if useRef then st.coverImage else none) st.userImages).result.success
  · obtain ⟨hfn, _, _⟩ := gsi_success_shape env page tid
      (if useRef then st.coverImage else none) st.userImages hs
    constructor
    · intro _
      refine ⟨?_, ?_, ?_, ?_⟩
      · simp [retrySingleImage, hs, hfn, hidx]
      · simp [retrySingleImage, hs, hfn, hidx]
      · exact (mem_keys_dictSet _ _ _ _).mpr (Or.inr rfl)
      · intro hmem
        exact ((mem_keys_dictDel _ _ _).mp hmem).2 rfl
    · intro hfalse
      rw [show ((retrySingleImage env tid page useRef fo ut (some st)).1).success = true from
        by simp [retrySingleImage, hs]] at hfalse
      exact absurd hfalse (by simp)
  · rw [Bool.not_eq_true] at hs
    obtain ⟨_, _, herr⟩ := gsi_fail_shape env page tid
      (if useRef then st.coverImage else none) st.userImages hs
    constructor
    · intro htrue
      rw [show ((retrySingleImage env tid page useRef fo ut (some st)).1).success = false from
        by simp [retrySingleImage, hs]] at htrue
      exact absurd htrue (by simp)
    · intro _
      refine ⟨?_, ?_, ?_, ?_⟩
      · simp [retrySingleImage, hs]
      · simp [retrySingleImage, hs]
      · simp only [retrySingleImage, hs, Bool.false_eq_true, if_false]
        exact herr
      · simp only [retrySingleImage, hs, Bool.false_eq_true, if_false]
        exact hidx

/-- Witness for C8: retrying page 2 of a task whose state lists it as failed,
with an always-succeeding generator. -/
theorem C8_retry_single_witness :
    (((retrySingleImage envAllOk "t" ⟨2, "content", "x"⟩ true "" ""
        (some ⟨[⟨2, "content", "x"⟩], [], [(2, "err")], none, "", none, ""⟩)).1).success = true →
      ((retrySingleImage envAllOk "t" ⟨2, "content", "x"⟩ true "" ""
          (some ⟨[⟨2, "content", "x"⟩], [], [(2, "err")], none, "", none, ""⟩)).1).imageUrl
          = some ("/api/images/" ++ "t" ++ "/" ++ (toString (2 : Nat) ++ ".png")) ∧
      (retrySingleImage envAllOk "t" ⟨2, "content", "x"⟩ true "" ""
          (some ⟨[⟨2, "content", "x"⟩], [], [(2, "err")], none, "", none, ""⟩)).2 =
        some { (⟨[⟨2, "content", "x"⟩], [], [(2, "err")], none, "", none, ""⟩ : GState) with
          generated := dictSet [] 2 (toString (2 : Nat) ++ ".png"),
          failed := dictDel [(2, "err")] 2 } ∧
      (2 : Nat) ∈ (dictSet [] 2 (toString (2 : Nat) ++ ".png")).map Prod.fst ∧
      (2 : Nat) ∉ (dictDel [(2, "err")] 2).map Prod.fst) ∧
    (((retrySingleImage envAllOk "t" ⟨2, "content", "x"⟩ true "" ""
        (some ⟨[⟨2, "content", "x"⟩], [], [(2, "err")], none, "", none, ""⟩)).1).success = false →
      (retrySingleImage envAllOk "t" ⟨2, "content", "x"⟩ true "" ""
          (some ⟨[⟨2, "content", "x"⟩], [], [(2, "err")], none, "", none, ""⟩)).2 =
        some ⟨[⟨2, "content", "x"⟩], [], [(2, "err")], none, "", none, ""⟩ ∧
      ((retrySingleImage envAllOk "t" ⟨2, "content", "x"⟩ true "" ""
          (some ⟨[⟨2, "content", "x"⟩], [], [(2, "err")], none, "", none, ""⟩)).1).retryable = some true ∧
      (((retrySingleImage envAllOk "t" ⟨2, "content", "x"⟩ true "" ""
          (some ⟨[⟨2, "content", "x"⟩], [], [(2, "err")], none, "", none, ""⟩)).1).error).isSome = true ∧
      ((retrySingleImage envAllOk "t" ⟨2, "content", "x"⟩ true "" ""
          (some ⟨[⟨2, "content", "x"⟩], [], [(2, "err")], none, "", none, ""⟩)).1).index = 2) :=
  C8_retry_single envAllOk "t" ⟨2, "content", "x"⟩ true "" ""
    ⟨[⟨2, "content", "x"⟩], [], [(2, "err")], none, "", none, ""⟩

/-- C7: in the `image_api` branch the reference list is the user images
followed by the cover reference, `None` when both are absent; and when the
cover generation succeeds, every content-page generator invocation of
`generate_images` receives the 200 KB-compressed cover bytes as its cover
reference (and, for `image_api`, a reference list built from exactly those
arguments). -/
theorem C7_reference_images :
    (∀ (us : List Bytes) (rb : Bytes), us ≠ [] → rb ≠ [] →
      refImagesArg (some us) (some rb) = some (us ++ [rb])) ∧
    refImagesArg none none = none ∧
    (∀ (env : Env) (pages : List Page) (tid fo ut : String) (ui : Option (List Bytes))
       (hcb : Bool) (sched : List Page → List Page) (cp : Page),
      (splitCover pages).1 = some cp →
      (generateSingleImage env cp tid none (compressUserImages ui)).result.success = true →
      ∀ c ∈ (generateImages env pages tid fo ui ut hcb sched).contentCalls,
        c.referenceImage = some (compress_image
            (((generateSingleImage env cp tid none (compressUserImages ui)).result.imageData).getD [])
            200) ∧
        (compress_image
            (((generateSingleImage env cp tid none (compressUserImages ui)).result.imageData).getD [])
            200).length ≤ 200 * 1024 ∧
        c.userImages = compressUserImages ui ∧
        c.referenceImages = (if env.providerType = "image_api"
          then refImagesArg (compressUserImages ui) c.referenceImage else none)) := by
  refine ⟨?_, rfl, ?_⟩
  · intro us rb h1 h2
    have h1' : us.isEmpty = false := by
      cases us with
      | nil => exact absurd rfl h1
      | cons a l => rfl
    have h2' : rb.isEmpty = false := by
      cases rb with
      | nil => exact absurd rfl h2
      | cons a l => rfl
    have h3 : (us ++ [rb]).isEmpty = false := by
      cases us with
      | nil => rfl
      | cons a l => rfl
    simp [refImagesArg, h1', h2', h3]
  · intro env pages tid fo ut ui hcb sched cp hcp hsucc c hc
    have hco := coverPhase_success env tid (compressUserImages ui) cp hsucc
    obtain ⟨h1, h2, h3⟩ := contentPhase_calls_mem env tid
      (coverPhase env tid (compressUserImages ui) (splitCover pages).1).coverImage
      (compressUserImages ui) hcb sched (splitCover pages).2
      (coverPhase env tid (compressUserImages ui) (splitCover pages).1).gen
      (coverPhase env tid (compressUserImages ui) (splitCover pages).1).fail c hc
    have hci : (coverPhase env tid (compressUserImages ui) (splitCover pages).1).coverImage =
        some (compress_image
          (((generateSingleImage env cp tid none (compressUserImages ui)).result.imageData).getD [])
          200) := by
      rw [hcp, hco]
    rw [hci] at h1
    refine ⟨h1, compress_image_le _ 200, h2, ?_⟩
    rw [h1, ← hci]
    exact h3

/-- Witness for C7: a two-page task (cover then content) with an
always-succeeding generator; the user list `[[1]]` precedes the cover
reference `[2]`. -/
theorem C7_reference_images_witness :
    refImagesArg (some [[1]]) (some [2]) = some ([[1]] ++ [[2]]) ∧
    (∀ c ∈ (generateImages envAllOk [⟨1, "cover", "a"⟩, ⟨2, "content", "b"⟩]
        "t" "" none "" false idSched).contentCalls,
      c.referenceImage = some (compress_image
          (((generateSingleImage envAllOk ⟨1, "cover", "a"⟩ "t" none
            (compressUserImages none)).result.imageData).getD []) 200) ∧
      (compress_image
          (((generateSingleImage envAllOk ⟨1, "cover", "a"⟩ "t" none
            (compressUserImages none)).result.imageData).getD []) 200).length ≤ 200 * 1024 ∧
      c.userImages = compressUserImages none ∧
      c.referenceImages = (if envAllOk.providerType = "image_api"
        then refImagesArg (compressUserImages none) c.referenceImage else none)) :=
  ⟨C7_reference_images.1 [[1]] [2] (by decide) (by decide),
   C7_reference_images.2.2 envAllOk [⟨1, "cover", "a"⟩, ⟨2, "content", "b"⟩]
     "t" "" "" none false idSched ⟨1, "cover", "a"⟩ (by decide) (by decide)⟩

/-- C4: when the cover page fails after all retries, `generate_images`
records the cover index in the task state's `failed` map, emits a retryable
`error` event with `phase=cover`, leaves `cover_image` unset, still submits
every content page — each content-page invocation receiving a null cover
reference — and still emits the terminal `finish` event. -/
theorem C4_cover_failure (env : Env) (pages : List Page) (tid fo ut : String)
    (ui : Option (List Bytes)) (hcb : Bool) (sched : List Page → List Page)
    (hsched : ∀ l, (sched l).Perm l) (cp : Page)
    (hcp : (splitCover pages).1 = some cp)
    (hfail : (generateSingleImage env cp tid none (compressUserImages ui)).result.success
      = false) :
    cp.index ∈ ((generateImages env pages tid fo ui ut hcb sched).state.failed).map Prod.fst ∧
    (Event.error cp.index
        ((generateSingleImage env cp tid none (compressUserImages ui)).result.error)
        true (some "cover")) ∈ (generateImages env pages tid fo ui ut hcb sched).events ∧
    (generateImages env pages tid fo ui ut hcb sched).state.coverImage = none ∧
    (∀ p ∈ (splitCover pages).2,
      ∃ c ∈ (generateImages env pages tid fo ui ut hcb sched).contentCalls,
        c.index = p.index) ∧
    (∀ c ∈ (generateImages env pages tid fo ui ut hcb sched).contentCalls,
      c.referenceImage = none) ∧
    (∃ s imgs t cnt fl fidx,
      ((generateImages env pages tid fo ui ut hcb sched).events).getLast? =
        some (Event.finish s tid imgs t cnt fl fidx)) := by
  have hco := coverPhase_fail env tid (compressUserImages ui) cp hfail
  have hcoverImage :
      (coverPhase env tid (compressUserImages ui) (splitCover pages).1).coverImage = none := by
    rw [hcp, hco]
  have hcoFail : (coverPhase env tid (compressUserImages ui) (splitCover pages).1).fail =
      [(cp.index, coverFailMsg
        ((generateSingleImage env cp tid none (compressUserImages ui)).result.error))] := by
    rw [hcp, hco]
  have hcoEvents : (coverPhase env tid (compressUserImages ui) (splitCover pages).1).events =
      [Event.progress (some cp.index) "generating" (some "cover"),
       Event.error cp.index
         ((generateSingleImage env cp tid none (compressUserImages ui)).result.error)
         true (some "cover")] := by
    rw [hcp, hco]
  refine ⟨?_, ?_, ?_, ?_, ?_, ?_⟩
  · show cp.index ∈ ((contentPhase env tid
      (coverPhase env tid (compressUserImages ui) (splitCover pages).1).coverImage
      (compressUserImages ui) hcb sched (splitCover pages).2
      (coverPhase env tid (compressUserImages ui) (splitCover pages).1).gen
      (coverPhase env tid (compressUserImages ui) (splitCover pages).1).fail).fail).map Prod.fst
    refine (contentPhase_keys_mono env tid _ _ hcb sched _ _ _ cp.index).2 ?_
    rw [hcoFail]
    simp
  · apply List.mem_append_left
    apply List.mem_append_left
    rw [hcoEvents]
    simp
  · exact hcoverImage
  · intro p hp
    exact contentPhase_calls_cover env tid
      (coverPhase env tid (compressUserImages ui) (splitCover pages).1).coverImage
      (compressUserImages ui) hcb sched hsched (splitCover pages).2
      (coverPhase env tid (compressUserImages ui) (splitCover pages).1).gen
      (coverPhase env tid (compressUserImages ui) (splitCover pages).1).fail p hp
  · intro c hc
    have h1 := (contentPhase_calls_mem env tid
      (coverPhase env tid (compressUserImages ui) (splitCover pages).1).coverImage
      (compressUserImages ui) hcb sched (splitCover pages).2
      (coverPhase env tid (compressUserImages ui) (splitCover pages).1).gen
      (coverPhase env tid (compressUserImages ui) (splitCover pages).1).fail c hc).1
    rw [hcoverImage] at h1
    exact h1
  · exact ⟨_, _, _, _, _, _, List.getLast?_concat _⟩

/-- Witness for C4: two pages, always-failing generator, serial mode. -/
theorem C4_cover_failure_witness :
    (1 : Nat) ∈ ((generateImages envAllFail [⟨1, "cover", "a"⟩, ⟨2, "content", "b"⟩]
        "t" "" none "" false idSched).state.failed).map Prod.fst ∧
    (Event.error 1
        ((generateSingleImage envAllFail ⟨1, "cover", "a"⟩ "t" none
          (compressUserImages none)).result.error)
        true (some "cover")) ∈ (generateImages envAllFail [⟨1, "cover", "a"⟩, ⟨2, "content", "b"⟩]
        "t" "" none "" false idSched).events ∧
    (generateImages envAllFail [⟨1, "cover", "a"⟩, ⟨2, "content", "b"⟩]
        "t" "" none "" false idSched).state.coverImage = none ∧
    (∀ p ∈ (splitCover [(⟨1, "cover", "a"⟩ : Page), ⟨2, "content", "b"⟩]).2,
      ∃ c ∈ (generateImages envAllFail [⟨1, "cover", "a"⟩, ⟨2, "content", "b"⟩]
          "t" "" none "" false idSched).contentCalls,
        c.index = p.index) ∧
    (∀ c ∈ (generateImages envAllFail [⟨1, "cover", "a"⟩, ⟨2, "content", "b"⟩]
        "t" "" none "" false idSched).contentCalls,
      c.referenceImage = none) ∧
    (∃ s imgs t cnt fl fidx,
      ((generateImages envAllFail [⟨1, "cover", "a"⟩, ⟨2, "content", "b"⟩]
          "t" "" none "" false idSched).events).getLast? =
        some (Event.finish s "t" imgs t cnt fl fidx)) :=
  C4_cover_failure envAllFail [⟨1, "cover", "a"⟩, ⟨2, "content", "b"⟩] "t" "" "" none false
    idSched (fun l => List.Perm.refl l) ⟨1, "cover", "a"⟩ (by decide) (by decide)

theorem generateImages_events_decomp (env : Env) (pages : List Page) (tid fo ut : String)
    (ui : Option (List Bytes)) (hcb : Bool) (sched : List Page → List Page) :
    ∃ s imgs t cnt fl fidx,
      (generateImages env pages tid fo ui ut hcb sched).events =
        (coverPhase env tid (compressUserImages ui) (splitCover pages).1).events ++
        ((contentPhase env tid
            (coverPhase env tid (compressUserImages ui) (splitCover pages).1).coverImage
            (compressUserImages ui) hcb sched (splitCover pages).2
            (coverPhase env tid (compressUserImages ui) (splitCover pages).1).gen
            (coverPhase env tid (compressUserImages ui) (splitCover pages).1).fail).events ++
          [Event.finish s tid imgs t cnt fl fidx]) := by
  refine ⟨((coverPhase env tid (compressUserImages ui) (splitCover pages).1).failPgs ++
      (contentPhase env tid
        (coverPhase env tid (compressUserImages ui) (splitCover pages).1).coverImage
        (compressUserImages ui) hcb sched (splitCover pages).2
        (coverPhase env tid (compressUserImages ui) (splitCover pages).1).gen
        (coverPhase env tid (compressUserImages ui) (splitCover pages).1).fail).failPgs).isEmpty,
    (coverPhase env tid (compressUserImages ui) (splitCover pages).1).genImgs ++
      (contentPhase env tid
        (coverPhase env tid (compressUserImages ui) (splitCover pages).1).coverImage
        (compressUserImages ui) hcb sched (splitCover pages).2
        (coverPhase env tid (compressUserImages ui) (splitCover pages).1).gen
        (coverPhase env tid (compressUserImages ui) (splitCover pages).1).fail).genImgs,
    pages.length,
    ((coverPhase env tid (compressUserImages ui) (splitCover pages).1).genImgs ++
      (contentPhase env tid
        (coverPhase env tid (compressUserImages ui) (splitCover pages).1).coverImage
        (compressUserImages ui) hcb sched (splitCover pages).2
        (coverPhase env tid (compressUserImages ui) (splitCover pages).1).gen
        (coverPhase env tid (compressUserImages ui) (splitCover pages).1).fail).genImgs).length,
    ((coverPhase env tid (compressUserImages ui) (splitCover pages).1).failPgs ++
      (contentPhase env tid
        (coverPhase env tid (compressUserImages ui) (splitCover pages).1).coverImage
        (compressUserImages ui) hcb sched (splitCover pages).2
        (coverPhase env tid (compressUserImages ui) (splitCover pages).1).gen
        (coverPhase env tid (compressUserImages ui) (splitCover pages).1).fail).failPgs).length,
    ((coverPhase env tid (compressUserImages ui) (splitCover pages).1).failPgs ++
      (contentPhase env tid
        (coverPhase env tid (compressUserImages ui) (splitCover pages).1).coverImage
        (compressUserImages ui) hcb sched (splitCover pages).2
        (coverPhase env tid (compressUserImages ui) (splitCover pages).1).gen
        (coverPhase env tid (compressUserImages ui) (splitCover pages).1).fail).failPgs).map
      (fun p => p.index), ?_⟩
  rw [← List.append_assoc]
  rfl

/-- C5: in every event sequence of `generate_images`, serial or parallel, the
cover page's terminal (`complete`/`error`) event precedes every content
page's terminal event; each index's `progress{status=generating}` event
strictly precedes that index's terminal event; and the `finish` event is the
unique last event. -/
theorem C5_event_ordering (env : Env) (pages : List Page) (tid fo ut : String)
    (ui : Option (List Bytes)) (hcb : Bool) (sched : List Page → List Page)
    (hsched : ∀ l, (sched l).Perm l) :
    (∀ i j (hi : i < ((generateImages env pages tid fo ui ut hcb sched).events).length)
       (hj : j < ((generateImages env pages tid fo ui ut hcb sched).events).length),
      isCoverCompletion (((generateImages env pages tid fo ui ut hcb sched).events).get ⟨i, hi⟩)
          = true →
      isContentCompletion (((generateImages env pages tid fo ui ut hcb sched).events).get ⟨j, hj⟩)
          = true → i < j) ∧
    (∀ idx, Precedes ((generateImages env pages tid fo ui ut hcb sched).events)
      (isGeneratingFor idx) (isCompletionFor idx)) ∧
    (∃ es s imgs t cnt fl fidx,
      (generateImages env pages tid fo ui ut hcb sched).events =
        es ++ [Event.finish s tid imgs t cnt fl fidx] ∧
      ∀ e ∈ es, e.isFinishB = false) := by
  obtain ⟨s, imgs, t, cnt, fl, fidx, hdec⟩ :=
    generateImages_events_decomp env pages tid fo ut ui hcb sched
  have hnoCoverRight : ∀ e ∈ (contentPhase env tid
      (coverPhase env tid (compressUserImages ui) (splitCover pages).1).coverImage
      (compressUserImages ui) hcb sched (splitCover pages).2
      (coverPhase env tid (compressUserImages ui) (splitCover pages).1).gen
      (coverPhase env tid (compressUserImages ui) (splitCover pages).1).fail).events ++
        [Event.finish s tid imgs t cnt fl fidx], ¬ isCoverCompletion e = true := by
    intro e he
    rw [List.mem_append] at he
    rcases he with he | he
    · rw [contentPhase_no_coverCompletion env tid _ _ hcb sched _ _ _ e he]
      simp
    · rw [List.mem_singleton] at he
      subst he
      simp [isCoverCompletion]
  have hnoContentLeft : ∀ e ∈ (coverPhase env tid (compressUserImages ui)
      (splitCover pages).1).events, ¬ isContentCompletion e = true := by
    intro e he
    rw [coverPhase_no_contentCompletion env tid (compressUserImages ui) _ e he]
    simp
  refine ⟨?_, ?_, ?_⟩
  · rw [hdec]
    intro i j hi hj hcov hcont
    have hi' := pos_lt_of_no_right _ _ isCoverCompletion hnoCoverRight i hi hcov
    have hj' := pos_ge_of_no_left _ _ isContentCompletion hnoContentLeft j hj hcont
    omega
  · intro idx
    rw [hdec]
    refine precedes_append_both (coverPhase_precedes env tid (compressUserImages ui) _ idx)
      (precedes_append_both
        (contentPhase_precedes env tid _ (compressUserImages ui) hcb sched hsched _ _ _ idx)
        (precedes_of_no_q _ _ _ ?_))
    intro e he
    rw [List.mem_singleton] at he
    subst he
    simp [isCompletionFor]
  · refine ⟨(coverPhase env tid (compressUserImages ui) (splitCover pages).1).events ++
      (contentPhase env tid
        (coverPhase env tid (compressUserImages ui) (splitCover pages).1).coverImage
        (compressUserImages ui) hcb sched (splitCover pages).2
        (coverPhase env tid (compressUserImages ui) (splitCover pages).1).gen
        (coverPhase env tid (compressUserImages ui) (splitCover pages).1).fail).events,
      s, imgs, t, cnt, fl, fidx, ?_, ?_⟩
    · rw [hdec, List.append_assoc]
    · intro e he
      rw [List.mem_append] at he
      rcases he with he | he
      · exact coverPhase_no_finish env tid (compressUserImages ui) _ e he
      · exact contentPhase_no_finish env tid _ (compressUserImages ui) hcb sched _ _ _ e he

/-- Witness for C5: three pages in parallel mode with the identity completion
order and an always-succeeding generator. -/
theorem C5_event_ordering_witness :
    (∀ i j (hi : i < ((generateImages envAllOk
        [⟨1, "cover", "a"⟩, ⟨2, "content", "b"⟩, ⟨3, "content", "c"⟩]
        "t" "" none "" true idSched).events).length)
       (hj : j < ((generateImages envAllOk
        [⟨1, "cover", "a"⟩, ⟨2, "content", "b"⟩, ⟨3, "content", "c"⟩]
        "t" "" none "" true idSched).events).length),
      isCoverCompletion (((generateImages envAllOk
        [⟨1, "cover", "a"⟩, ⟨2, "content", "b"⟩, ⟨3, "content", "c"⟩]
        "t" "" none "" true idSched).events).get ⟨i, hi⟩) = true →
      isContentCompletion (((generateImages envAllOk
        [⟨1, "cover", "a"⟩, ⟨2, "content", "b"⟩, ⟨3, "content", "c"⟩]
        "t" "" none "" true idSched).events).get ⟨j, hj⟩) = true → i < j) ∧
    (∀ idx, Precedes ((generateImages envAllOk
        [⟨1, "cover", "a"⟩, ⟨2, "content", "b"⟩, ⟨3, "content", "c"⟩]
        "t" "" none "" true idSched).events)
      (isGeneratingFor idx) (isCompletionFor idx)) ∧
    (∃ es s imgs t cnt fl fidx,
      (generateImages envAllOk
        [⟨1, "cover", "a"⟩, ⟨2, "content", "b"⟩, ⟨3, "content", "c"⟩]
        "t" "" none "" true idSched).events =
        es ++ [Event.finish s "t" imgs t cnt fl fidx] ∧
      ∀ e ∈ es, e.isFinishB = false) :=
  C5_event_ordering envAllOk [⟨1, "cover", "a"⟩, ⟨2, "content", "b"⟩, ⟨3, "content", "c"⟩]
    "t" "" "" none true idSched (fun l => List.Perm.refl l)

/-- C1 counterexample: on the page list `[(1,content),(2,cover),(3,cover)]`
with an always-failing generator in serial mode, the terminal event is
`finish{total=3, completed=0, failed=2, failed_indices=[3,1]}`: `completed +
failed ≠ total` (the first cover-typed page is silently dropped by the
partition loop, which keeps only the last cover) and `failed_indices` is not
ascending (the cover page is recorded first). -/
theorem C1_counterexample :
    (generateImages envAllFail [⟨1, "content", "a"⟩, ⟨2, "cover", "b"⟩, ⟨3, "cover", "c"⟩]
        "t" "" none "" false idSched).events.getLast? =
      some (Event.finish false "t" [] 3 0 2 [3, 1]) ∧
    ¬((0 : Nat) + 2 = 3) ∧
    ¬List.Pairwise (fun a b : Nat => a ≤ b) [3, 1] :=
  ⟨rfl, by decide, fun h => by
    have h31 := (List.pairwise_cons.mp h).1 1 (List.mem_singleton.mpr rfl)
    omega⟩

theorem generateImages_counts (env : Env) (pages : List Page) (tid fo ut : String)
    (ui : Option (List Bytes)) (hcb : Bool) (sched : List Page → List Page)
    (hdist : pages.Pairwise (fun a b => a.index ≠ b.index))
    (hcover : (pages.filter (fun p => p.ptype == "cover")).length ≤ 1)
    (hsched : ∀ l, (sched l).Perm l) :
    ((coverPhase env tid (compressUserImages ui) (splitCover pages).1).genImgs ++
      (contentPhase env tid
        (coverPhase env tid (compressUserImages ui) (splitCover pages).1).coverImage
        (compressUserImages ui) hcb sched (splitCover pages).2
        (coverPhase env tid (compressUserImages ui) (splitCover pages).1).gen
        (coverPhase env tid (compressUserImages ui) (splitCover pages).1).fail).genImgs).length +
    ((coverPhase env tid (compressUserImages ui) (splitCover pages).1).failPgs ++
      (contentPhase env tid
        (coverPhase env tid (compressUserImages ui) (splitCover pages).1).coverImage
        (compressUserImages ui) hcb sched (splitCover pages).2
        (coverPhase env tid (compressUserImages ui) (splitCover pages).1).gen
        (coverPhase env tid (compressUserImages ui) (splitCover pages).1).fail).failPgs).length
      = pages.length ∧
    ((coverPhase env tid (compressUserImages ui) (splitCover pages).1).genImgs ++
      (contentPhase env tid
        (coverPhase env tid (compressUserImages ui) (splitCover pages).1).coverImage
        (compressUserImages ui) hcb sched (splitCover pages).2
        (coverPhase env tid (compressUserImages ui) (splitCover pages).1).gen
        (coverPhase env tid (compressUserImages ui) (splitCover pages).1).fail).genImgs).length =
      ((generateImages env pages tid fo ui ut hcb sched).state.generated).length ∧
    ((coverPhase env tid (compressUserImages ui) (splitCover pages).1).failPgs ++
      (contentPhase env tid
        (coverPhase env tid (compressUserImages ui) (splitCover pages).1).coverImage
        (compressUserImages ui) hcb sched (splitCover pages).2
        (coverPhase env tid (compressUserImages ui) (splitCover pages).1).gen
        (coverPhase env tid (compressUserImages ui) (splitCover pages).1).fail).failPgs).length =
      ((generateImages env pages tid fo ui ut hcb sched).state.failed).length ∧
    ((coverPhase env tid (compressUserImages ui) (splitCover pages).1).failPgs ++
      (contentPhase env tid
        (coverPhase env tid (compressUserImages ui) (splitCover pages).1).coverImage
        (compressUserImages ui) hcb sched (splitCover pages).2
        (coverPhase env tid (compressUserImages ui) (splitCover pages).1).gen
        (coverPhase env tid (compressUserImages ui) (splitCover pages).1).fail).failPgs).map
        (fun p => p.index) =
      ((generateImages env pages tid fo ui ut hcb sched).state.failed).map Prod.fst := by
  by_cases hne : pages = []
  · subst hne
    refine ⟨?_, ?_, ?_, ?_⟩ <;>
      simp [splitCover, coverPhase, contentPhase, generateImages]
  · obtain ⟨cp, hcp, hcpmem, hlen, hothers, hdist2, hcpfresh⟩ :=
      splitCover_spec pages hdist hcover hne
    by_cases hs : (generateSingleImage env cp tid none (compressUserImages ui)).result.success
    · have hco := coverPhase_success env tid (compressUserImages ui) cp hs
      have hgen' : (coverPhase env tid (compressUserImages ui) (splitCover pages).1).gen =
          [(cp.index, toString cp.index ++ ".png")] := by
        rw [hcp, hco]
      have hfail' : (coverPhase env tid (compressUserImages ui) (splitCover pages).1).fail =
          ([] : List (Nat × String)) := by
        rw [hcp, hco]
      have hgi' : (coverPhase env tid (compressUserImages ui) (splitCover pages).1).genImgs =
          [toString cp.index ++ ".png"] := by
        rw [hcp, hco]
      have hfp' : (coverPhase env tid (compressUserImages ui) (splitCover pages).1).failPgs =
          ([] : List Page) := by
        rw [hcp, hco]
      have hg0 : ∀ p ∈ (splitCover pages).2,
          p.index ∉ ([(cp.index, toString cp.index ++ ".png")] :
            List (Nat × String)).map Prod.fst := by
        intro p hp hmem
        simp at hmem
        exact hcpfresh p hp hmem.symm
      have hf0 : ∀ p ∈ (splitCover pages).2,
          p.index ∉ (([] : List (Nat × String))).map Prod.fst := by
        intro p hp hmem
        simp at hmem
      obtain ⟨gN, fN, h1, h2, h3, h4, h5⟩ := contentPhase_split env tid
        (coverPhase env tid (compressUserImages ui) (splitCover pages).1).coverImage
        (compressUserImages ui) hcb sched hsched (splitCover pages).2
        [(cp.index, toString cp.index ++ ".png")] [] hdist2 hg0 hf0
      have hcount : gN.length + fN.length = (splitCover pages).2.length := by
        have hx := h5.length_eq
        simpa using hx
      have hfNlen : fN.length = (contentPhase env tid
          (coverPhase env tid (compressUserImages ui) (splitCover pages).1).coverImage
          (compressUserImages ui) hcb sched (splitCover pages).2
          [(cp.index, toString cp.index ++ ".png")] []).failPgs.length := by
        have hx := congrArg List.length h4
        simpa using hx
      refine ⟨?_, ?_, ?_, ?_⟩
      · rw [hgi', hfp', hgen', hfail']
        simp only [List.length_append, List.nil_append, List.length_cons, List.length_nil]
        omega
      · simp only [generateImages]
        rw [hgi', hgen', hfail']
        rw [h1]
        simp only [List.length_append, List.length_cons, List.length_nil]
        omega
      · simp only [generateImages]
        rw [hfp', hgen', hfail']
        rw [h2]
        simp only [List.length_append, List.nil_append, List.length_nil]
        omega
      · simp only [generateImages]
        rw [hfp', hgen', hfail']
        rw [h2]
        simp only [List.nil_append]
        exact h4.symm
    · rw [Bool.not_eq_true] at hs
      have hco := coverPhase_fail env tid (compressUserImages ui) cp hs
      have hgen' : (coverPhase env tid (compressUserImages ui) (splitCover pages).1).gen =
          ([] : List (Nat × String)) := by
        rw [hcp, hco]
      have hfail' : (coverPhase env tid (compressUserImages ui) (splitCover pages).1).fail =
          [(cp.index, coverFailMsg
            ((generateSingleImage env cp tid none (compressUserImages ui)).result.error))] := by
        rw [hcp, hco]
      have hgi' : (coverPhase env tid (compressUserImages ui) (splitCover pages).1).genImgs =
          ([] : List String) := by
        rw [hcp, hco]
      have hfp' : (coverPhase env tid (compressUserImages ui) (splitCover pages).1).failPgs =
          [cp] := by
        rw [hcp, hco]
      have hg0 : ∀ p ∈ (splitCover pages).2,
          p.index ∉ (([] : List (Nat × String))).map Prod.fst := by
        intro p hp hmem
        simp at hmem
      have hf0 : ∀ p ∈ (splitCover pages).2,
          p.index ∉ ([(cp.index, coverFailMsg
            ((generateSingleImage env cp tid none (compressUserImages ui)).result.error))] :
            List (Nat × String)).map Prod.fst := by
        intro p hp hmem
        simp at hmem
        exact hcpfresh p hp hmem.symm
      obtain ⟨gN, fN, h1, h2, h3, h4, h5⟩ := contentPhase_split env tid
        (coverPhase env tid (compressUserImages ui) (splitCover pages).1).coverImage
        (compressUserImages ui) hcb sched hsched (splitCover pages).2
        [] [(cp.index, coverFailMsg
          ((generateSingleImage env cp tid none (compressUserImages ui)).result.error))]
        hdist2 hg0 hf0
      have hcount : gN.length + fN.length = (splitCover pages).2.length := by
        have hx := h5.length_eq
        simpa using hx
      have hfNlen : fN.length = (contentPhase env tid
          (coverPhase env tid (compressUserImages ui) (splitCover pages).1).coverImage
          (compressUserImages ui) hcb sched (splitCover pages).2
          [] [(cp.index, coverFailMsg
            ((generateSingleImage env cp tid none (compressUserImages ui)).result.error))]).failPgs.length := by
        have hx := congrArg List.length h4
        simpa using hx
      refine ⟨?_, ?_, ?_, ?_⟩
      · rw [hgi', hfp', hgen', hfail']
        simp only [List.length_append, List.nil_append, List.length_cons, List.length_nil]
        omega
      · simp only [generateImages]
        rw [hgi', hgen', hfail']
        rw [h1]
        simp only [List.length_append, List.nil_append]
        omega
      · simp only [generateImages]
        rw [hfp', hgen', hfail']
        rw [h2]
        simp only [List.length_append, List.length_cons, List.length_nil]
        omega
      · simp only [generateImages]
        rw [hfp', hgen', hfail']
        rw [h2]
        simp only [List.map_append, List.map_cons, List.map_nil, List.singleton_append]
        rw [h4]

/-- C1 (amended): for page lists with pairwise-distinct indices and at most
one cover-typed page, every `generate_images` run emits exactly one `finish`
event, as the last event, with `completed + failed = total = |pages|`,
`completed` the size of the `generated` map, `failed` the size of the
`failed` map, and `success` true iff `failed = 0`; `failed_indices` equals
the key list of the `failed` map in recording order (the cover page first,
then content pages in completion order), which need not be ascending. -/
theorem C1_finish_event (env : Env) (pages : List Page) (tid fo ut : String)
    (ui : Option (List Bytes)) (hcb : Bool) (sched : List Page → List Page)
    (hdist : pages.Pairwise (fun a b => a.index ≠ b.index))
    (hcover : (pages.filter (fun p => p.ptype == "cover")).length ≤ 1)
    (hsched : ∀ l, (sched l).Perm l) :
    ∃ es success imgs completed failed fidx,
      (generateImages env pages tid fo ui ut hcb sched).events =
        es ++ [Event.finish success tid imgs pages.length completed failed fidx] ∧
      (∀ e ∈ es, e.isFinishB = false) ∧
      completed + failed = pages.length ∧
      completed = ((generateImages env pages tid fo ui ut hcb sched).state.generated).length ∧
      failed = ((generateImages env pages tid fo ui ut hcb sched).state.failed).length ∧
      (success = true ↔ failed = 0) ∧
      fidx = ((generateImages env pages tid fo ui ut hcb sched).state.failed).map Prod.fst := by
  obtain ⟨hc1, hc2, hc3, hc4⟩ :=
    generateImages_counts env pages tid fo ut ui hcb sched hdist hcover hsched
  refine ⟨(coverPhase env tid (compressUserImages ui) (splitCover pages).1).events ++
      (contentPhase env tid
        (coverPhase env tid (compressUserImages ui) (splitCover pages).1).coverImage
        (compressUserImages ui) hcb sched (splitCover pages).2
        (coverPhase env tid (compressUserImages ui) (splitCover pages).1).gen
        (coverPhase env tid (compressUserImages ui) (splitCover pages).1).fail).events,
    ((coverPhase env tid (compressUserImages ui) (splitCover pages).1).failPgs ++
      (contentPhase env tid
        (coverPhase env tid (compressUserImages ui) (splitCover pages).1).coverImage
        (compressUserImages ui) hcb sched (splitCover pages).2
        (coverPhase env tid (compressUserImages ui) (splitCover pages).1).gen
        (coverPhase env tid (compressUserImages ui) (splitCover pages).1).fail).failPgs).isEmpty,
    (coverPhase env tid (compressUserImages ui) (splitCover pages).1).genImgs ++
      (contentPhase env tid
        (coverPhase env tid (compressUserImages ui) (splitCover pages).1).coverImage
        (compressUserImages ui) hcb sched (splitCover pages).2
        (coverPhase env tid (compressUserImages ui) (splitCover pages).1).gen
        (coverPhase env tid (compressUserImages ui) (splitCover pages).1).fail).genImgs,
    ((coverPhase env tid (compressUserImages ui) (splitCover pages).1).genImgs ++
      (contentPhase env tid
        (coverPhase env tid (compressUserImages ui) (splitCover pages).1).coverImage
        (compressUserImages ui) hcb sched (splitCover pages).2
        (coverPhase env tid (compressUserImages ui) (splitCover pages).1).gen
        (coverPhase env tid (compressUserImages ui) (splitCover pages).1).fail).genImgs).length,
    ((coverPhase env tid (compressUserImages ui) (splitCover pages).1).failPgs ++
      (contentPhase env tid
        (coverPhase env tid (compressUserImages ui) (splitCover pages).1).coverImage
        (compressUserImages ui) hcb sched (splitCover pages).2
        (coverPhase env tid (compressUserImages ui) (splitCover pages).1).gen
        (coverPhase env tid (compressUserImages ui) (splitCover pages).1).fail).failPgs).length,
    ((coverPhase env tid (compressUserImages ui) (splitCover pages).1).failPgs ++
      (contentPhase env tid
        (coverPhase env tid (compressUserImages ui) (splitCover pages).1).coverImage
        (compressUserImages ui) hcb sched (splitCover pages).2
        (coverPhase env tid (compressUserImages ui) (splitCover pages).1).gen
        (coverPhase env tid (compressUserImages ui) (splitCover pages).1).fail).failPgs).map
      (fun p => p.index),
    ?_, ?_, hc1, hc2, hc3, ?_, hc4⟩
  · rfl
  · intro e he
    rw [List.mem_append] at he
    rcases he with he | he
    · exact coverPhase_no_finish env tid (compressUserImages ui) _ e he
    · exact contentPhase_no_finish env tid _ (compressUserImages ui) hcb sched _ _ _ e he
  · simp [List.isEmpty_iff, List.length_eq_zero]

/-- Witness for C1 at a two-page list (cover then content) with an
always-succeeding generator in serial mode. -/
theorem C1_finish_event_witness :
    ∃ es success imgs completed failed fidx,
      (generateImages envAllOk [⟨1, "cover", "a"⟩, ⟨2, "content", "b"⟩]
          "t" "" none "" false idSched).events =
        es ++ [Event.finish success "t" imgs
          ([(⟨1, "cover", "a"⟩ : Page), ⟨2, "content", "b"⟩].length) completed failed fidx] ∧
      (∀ e ∈ es, e.isFinishB = false) ∧
      completed + failed = [(⟨1, "cover", "a"⟩ : Page), ⟨2, "content", "b"⟩].length ∧
      completed = ((generateImages envAllOk [⟨1, "cover", "a"⟩, ⟨2, "content", "b"⟩]
          "t" "" none "" false idSched).state.generated).length ∧
      failed = ((generateImages envAllOk [⟨1, "cover", "a"⟩, ⟨2, "content", "b"⟩]
          "t" "" none "" false idSched).state.failed).length ∧
      (success = true ↔ failed = 0) ∧
      fidx = ((generateImages envAllOk [⟨1, "cover", "a"⟩, ⟨2, "content", "b"⟩]
          "t" "" none "" false idSched).state.failed).map Prod.fst :=
  C1_finish_event envAllOk [⟨1, "cover", "a"⟩, ⟨2, "content", "b"⟩] "t" "" "" none false idSched
    (by decide) (by decide) (fun l => List.Perm.refl l)

theorem mem_of_getLast? {α : Type} : ∀ (l : List α) (a : α), l.getLast? = some a → a ∈ l := by
  intro l
  induction l with
  | nil => intro a h; simp at h
  | cons x t ih =>
    intro a h
    cases t with
    | nil =>
      simp at h
      subst h
      exact List.mem_singleton.mpr rfl
    | cons y t2 =>
      rw [List.getLast?_cons_cons] at h
      exact List.mem_cons_of_mem x (ih a h)

theorem splitCover_inv_spec (pages : List Page)
    (hdist : pages.Pairwise (fun a b => a.index ≠ b.index))
    (hne : pages ≠ []) :
    ∃ cp, (splitCover pages).1 = some cp ∧ cp ∈ pages ∧
      (∀ q ∈ (splitCover pages).2, q ∈ pages) ∧
      ((splitCover pages).2.Pairwise (fun a b => a.index ≠ b.index)) ∧
      (∀ q ∈ (splitCover pages).2, cp.index ≠ q.index) := by
  rcases hfc : pages.filter (fun p => p.ptype == "cover") with _ | ⟨c, rest⟩
  · rcases pages with _ | ⟨p, ps⟩
    · exact absurd rfl hne
    · have hsc : splitCover (p :: ps) = (some p, ps) := by
        simp [splitCover, hfc]
      rw [hsc]
      exact ⟨p, rfl, List.mem_cons_self p ps, fun q hq => List.mem_cons_of_mem p hq,
        (List.pairwise_cons.mp hdist).2, (List.pairwise_cons.mp hdist).1⟩
  · rcases hgl : (c :: rest).getLast? with _ | cl
    · simp at hgl
    · have hsc : splitCover pages = (some cl, pages.filter (fun p => !(p.ptype == "cover"))) := by
        simp [splitCover, hfc, hgl]
      have hclfil : cl ∈ pages.filter (fun p => p.ptype == "cover") := by
        rw [hfc]
        exact mem_of_getLast? _ cl hgl
      have hclmem : cl ∈ pages := (List.mem_filter.mp hclfil).1
      have hcltype : (cl.ptype == "cover") = true := (List.mem_filter.mp hclfil).2
      rw [hsc]
      refine ⟨cl, rfl, hclmem, ?_, hdist.filter _, ?_⟩
      · intro q hq
        exact (List.mem_filter.mp hq).1
      · intro q hq
        have hqmem := (List.mem_filter.mp hq).1
        have hqnc := (List.mem_filter.mp hq).2
        have hne' : cl ≠ q := by
          intro hx
          rw [← hx] at hqnc
          rw [hcltype] at hqnc
          simp at hqnc
        exact hdist.forall indexNe_symm hclmem hqmem hne'

theorem stateInv_move (st : GState) (idx : Nat) (fn : String)
    (hinv : StateInv st) (hidx : ∃ q ∈ st.pages, q.index = idx) :
    StateInv ⟨st.pages, dictSet st.generated idx fn, dictDel st.failed idx,
      st.coverImage, st.fullOutline, st.userImages, st.userTopic⟩ := by
  obtain ⟨hdisj, hsub⟩ := hinv
  constructor
  · intro k hk hkf
    rw [mem_keys_dictSet] at hk
    rw [mem_keys_dictDel] at hkf
    rcases hk with hk | rfl
    · exact hdisj k hk hkf.1
    · exact hkf.2 rfl
  · intro k hk
    rw [List.mem_append] at hk
    rcases hk with hk | hk
    · rw [mem_keys_dictSet] at hk
      rcases hk with hk | rfl
      · exact hsub k (List.mem_append_left _ hk)
      · exact hidx
    · have hk' := (mem_keys_dictDel _ _ _).mp hk
      exact hsub k (List.mem_append_right _ hk'.1)

theorem retryFold_inv (env : Env) (tid : String) (refImg : Option Bytes)
    (basePages : List Page) :
    ∀ pgs : List Page, (∀ p ∈ pgs, ∃ q ∈ basePages, q.index = p.index) →
      ∀ acc : RetryAcc,
        (∀ s0, acc.st = some s0 → s0.pages = basePages ∧ StateInv s0) →
        ∀ s2, (pgs.foldl (retryStep env tid refImg) acc).st = some s2 →
          s2.pages = basePages ∧ StateInv s2 := by
  intro pgs
  induction pgs with
  | nil =>
    intro _ acc hacc s2 h
    exact hacc s2 h
  | cons p pgs ih =>
    intro hmem acc hacc s2 h
    rw [List.foldl_cons] at h
    refine ih (fun q hq => hmem q (List.mem_cons_of_mem p hq))
      (retryStep env tid refImg acc p) ?_ s2 h
    intro s0 hs0
    by_cases hs : (generateSingleImage env p tid refImg none).result.success
    · have hidx := gsi_index env p tid refImg none
      have hfn := (gsi_success_shape env p tid refImg none hs).1
      cases hacst : acc.st with
      | none =>
        rw [show (retryStep env tid refImg acc p).st = none from
          by simp [retryStep, hs, hacst]] at hs0
        exact absurd hs0 (by simp)
      | some s1 =>
        obtain ⟨hp1, hinv1⟩ := hacc s1 hacst
        rw [show (retryStep env tid refImg acc p).st =
            some ⟨s1.pages, dictSet s1.generated p.index (toString p.index ++ ".png"),
              dictDel s1.failed p.index, s1.coverImage, s1.fullOutline, s1.userImages,
              s1.userTopic⟩ from by simp [retryStep, hs, hacst, hidx, hfn]] at hs0
        have heq := Option.some.inj hs0
        rw [← heq]
        constructor
        · exact hp1
        · refine stateInv_move s1 p.index _ hinv1 ?_
          rw [hp1]
          exact hmem p (List.mem_cons_self p pgs)
    · rw [Bool.not_eq_true] at hs
      rw [show (retryStep env tid refImg acc p).st = acc.st from
        by simp [retryStep, hs]] at hs0
      exact hacc s0 hs0

/-- C3 counterexample: `retry_single_image` accepts a page that is not part
of the task (index 5 of an empty task) and on success records it in
`generated`, breaking the invariant that every key of the maps is the index
of some page of the task. -/
theorem C3_counterexample :
    (retrySingleImage envAllOk "t" ⟨5, "content", "x"⟩ true "" ""
        (some ⟨[], [], [], none, "", none, ""⟩)).2 =
      some ⟨[], [(5, "5.png")], [], none, "", none, ""⟩ ∧
    ¬ StateInv ⟨[], [(5, "5.png")], [], none, "", none, ""⟩ := by
  refine ⟨rfl, ?_⟩
  rintro ⟨-, hsub⟩
  have h5 := hsub 5 (by simp)
  obtain ⟨p, hp, -⟩ := h5
  simp at hp

/-- C3 (amended): the key-disjointness of `generated`/`failed` and the
containment of their keys in the task's page indices hold at task creation,
after every `generate_images` run on pages with pairwise-distinct indices,
and after `retry_single_image` / `retry_failed_images` whenever the retried
pages carry indices of the task's own pages — the code itself does not
validate either condition. -/
theorem C3_state_invariant :
    (∀ (pages : List Page) (fo : String) (ui : Option (List Bytes)) (ut : String),
      StateInv ⟨pages, [], [], none, fo, ui, ut⟩) ∧
    (∀ (env : Env) (pages : List Page) (tid fo ut : String) (ui : Option (List Bytes))
       (hcb : Bool) (sched : List Page → List Page),
      pages.Pairwise (fun a b => a.index ≠ b.index) → (∀ l, (sched l).Perm l) →
      StateInv (generateImages env pages tid fo ui ut hcb sched).state) ∧
    (∀ (env : Env) (tid : String) (page : Page) (useRef : Bool) (fo ut : String)
       (st st' : GState),
      StateInv st → (∃ q ∈ st.pages, q.index = page.index) →
      (retrySingleImage env tid page useRef fo ut (some st)).2 = some st' → StateInv st') ∧
    (∀ (env : Env) (tid : String) (pages : List Page) (st st' : GState)
       (sched : List Page → List Page),
      StateInv st → (∀ p ∈ pages, ∃ q ∈ st.pages, q.index = p.index) →
      (∀ l, (sched l).Perm l) →
      (retryFailedImages env tid pages (some st) sched).2 = some st' → StateInv st') := by
  refine ⟨?_, ?_, ?_, ?_⟩
  · intro pages fo ui ut
    exact ⟨by simp, by simp⟩
  · intro env pages tid fo ut ui hcb sched hdist hsched
    by_cases hne : pages = []
    · subst hne
      constructor <;> simp [generateImages, splitCover, coverPhase, contentPhase]
    · obtain ⟨cp, hcp, hcpmem, hothers, hdist2, hcpfresh⟩ :=
        splitCover_inv_spec pages hdist hne
      have hnodup0 : ((splitCover pages).2.map (fun p => p.index)).Nodup := by
        unfold List.Nodup
        rw [List.pairwise_map]
        exact hdist2
      have hstpages : (generateImages env pages tid fo ui ut hcb sched).state.pages = pages := rfl
      by_cases hs : (generateSingleImage env cp tid none (compressUserImages ui)).result.success
      · have hco := coverPhase_success env tid (compressUserImages ui) cp hs
        have hgen' : (coverPhase env tid (compressUserImages ui) (splitCover pages).1).gen =
            [(cp.index, toString cp.index ++ ".png")] := by
          rw [hcp, hco]
        have hfail' : (coverPhase env tid (compressUserImages ui) (splitCover pages).1).fail =
            ([] : List (Nat × String)) := by
          rw [hcp, hco]
        have hg0 : ∀ p ∈ (splitCover pages).2,
            p.index ∉ ([(cp.index, toString cp.index ++ ".png")] :
              List (Nat × String)).map Prod.fst := by
          intro p hp hmem
          simp at hmem
          exact hcpfresh p hp hmem.symm
        have hf0 : ∀ p ∈ (splitCover pages).2,
            p.index ∉ (([] : List (Nat × String))).map Prod.fst := by
          intro p hp hmem
          simp at hmem
        obtain ⟨gN, fN, h1, h2, h3, h4, h5⟩ := contentPhase_split env tid
          (coverPhase env tid (compressUserImages ui) (splitCover pages).1).coverImage
          (compressUserImages ui) hcb sched hsched (splitCover pages).2
          [(cp.index, toString cp.index ++ ".png")] [] hdist2 hg0 hf0
        have hstgen : (generateImages env pages tid fo ui ut hcb sched).state.generated =
            [(cp.index, toString cp.index ++ ".png")] ++ gN := by
          simp only [generateImages]
          rw [hgen', hfail']
          exact h1
        have hstfail : (generateImages env pages tid fo ui ut hcb sched).state.failed = fN := by
          simp only [generateImages]
          rw [hgen', hfail']
          simpa using h2
        have hnodup : (gN.map Prod.fst ++ fN.map Prod.fst).Nodup :=
          (h5.nodup_iff).mpr hnodup0
        have hdisjN : List.Disjoint (gN.map Prod.fst) (fN.map Prod.fst) :=
          List.disjoint_of_nodup_append hnodup
        have hkeysub : ∀ k, k ∈ gN.map Prod.fst ++ fN.map Prod.fst →
            ∃ q ∈ (splitCover pages).2, q.index = k := by
          intro k hk
          have hk' := h5.mem_iff.mp hk
          rw [List.mem_map] at hk'
          obtain ⟨q, hq, hqe⟩ := hk'
          exact ⟨q, hq, hqe⟩
        have hcpnotinF : cp.index ∉ fN.map Prod.fst := by
          intro hmem
          obtain ⟨q, hq, hqe⟩ := hkeysub cp.index (List.mem_append_right _ hmem)
          exact hcpfresh q hq hqe.symm
        constructor
        · intro k hk hkf
          rw [hstgen] at hk
          rw [hstfail] at hkf
          rw [List.map_append, List.mem_append] at hk
          rcases hk with hk | hk
          · simp at hk
            subst hk
            exact hcpnotinF hkf
          · exact hdisjN hk hkf
        · intro k hk
          rw [hstgen, hstfail] at hk
          rw [hstpages]
          rw [List.map_append] at hk
          rw [List.append_assoc, List.mem_append] at hk
          rcases hk with hk | hk
          · simp at hk
            subst hk
            exact ⟨cp, hcpmem, rfl⟩
          · obtain ⟨q, hq, hqe⟩ := hkeysub k hk
            exact ⟨q, hothers q hq, hqe⟩
      · rw [Bool.not_eq_true] at hs
        have hco := coverPhase_fail env tid (compressUserImages ui) cp hs
        have hgen' : (coverPhase env tid (compressUserImages ui) (splitCover pages).1).gen =
            ([] : List (Nat × String)) := by
          rw [hcp, hco]
        have hfail' : (coverPhase env tid (compressUserImages ui) (splitCover pages).1).fail =
            [(cp.index, coverFailMsg
              ((generateSingleImage env cp tid none (compressUserImages ui)).result.error))] := by
          rw [hcp, hco]
        have hg0 : ∀ p ∈ (splitCover pages).2,
            p.index ∉ (([] : List (Nat × String))).map Prod.fst := by
          intro p hp hmem
          simp at hmem
        have hf0 : ∀ p ∈ (splitCover pages).2,
            p.index ∉ ([(cp.index, coverFailMsg
              ((generateSingleImage env cp tid none (compressUserImages ui)).result.error))] :
              List (Nat × String)).map Prod.fst := by
          intro p hp hmem
          simp at hmem
          exact hcpfresh p hp hmem.symm
        obtain ⟨gN, fN, h1, h2, h3, h4, h5⟩ := contentPhase_split env tid
          (coverPhase env tid (compressUserImages ui) (splitCover pages).1).coverImage
          (compressUserImages ui) hcb sched hsched (splitCover pages).2
          [] [(cp.index, coverFailMsg
            ((generateSingleImage env cp tid none (compressUserImages ui)).result.error))]
          hdist2 hg0 hf0
        have hstgen : (generateImages env pages tid fo ui ut hcb sched).state.generated = gN := by
          simp only [generateImages]
          rw [hgen', hfail']
          simpa using h1
        have hstfail : (generateImages env pages tid fo ui ut hcb sched).state.failed =
            [(cp.index, coverFailMsg
              ((generateSingleImage env cp tid none (compressUserImages ui)).result.error))]
              ++ fN := by
          simp only [generateImages]
          rw [hgen', hfail']
          exact h2
        have hnodup : (gN.map Prod.fst ++ fN.map Prod.fst).Nodup :=
          (h5.nodup_iff).mpr hnodup0
        have hdisjN : List.Disjoint (gN.map Prod.fst) (fN.map Prod.fst) :=
          List.disjoint_of_nodup_append hnodup
        have hkeysub : ∀ k, k ∈ gN.map Prod.fst ++ fN.map Prod.fst →
            ∃ q ∈ (splitCover pages).2, q.index = k := by
          intro k hk
          have hk' := h5.mem_iff.mp hk
          rw [List.mem_map] at hk'
          obtain ⟨q, hq, hqe⟩ := hk'
          exact ⟨q, hq, hqe⟩
        have hcpnotinG : cp.index ∉ gN.map Prod.fst := by
          intro hmem
          obtain ⟨q, hq, hqe⟩ := hkeysub cp.index (List.mem_append_left _ hmem)
          exact hcpfresh q hq hqe.symm
        constructor
        · intro k hk hkf
          rw [hstgen] at hk
          rw [hstfail] at hkf
          rw [List.map_append, List.mem_append] at hkf
          rcases hkf with hkf | hkf
          · simp at hkf
            subst hkf
            exact hcpnotinG hk
          · exact hdisjN hk hkf
        · intro k hk
          rw [hstgen, hstfail] at hk
          rw [hstpages]
          rw [List.mem_append] at hk
          rcases hk with hk | hk
          · obtain ⟨q, hq, hqe⟩ := hkeysub k (List.mem_append_left _ hk)
            exact ⟨q, hothers q hq, hqe⟩
          · rw [List.map_append, List.mem_append] at hk
            rcases hk with hk | hk
            · simp at hk
              subst hk
              exact ⟨cp, hcpmem, rfl⟩
            · obtain ⟨q, hq, hqe⟩ := hkeysub k (List.mem_append_right _ hk)
              exact ⟨q, hothers q hq, hqe⟩
  · intro env tid page useRef fo ut st st' hinv hpage h
    by_cases hs : (generateSingleImage env page tid
        (if useRef then st.coverImage else none) st.userImages).result.success
    · have hidx := gsi_index env page tid (if useRef then st.coverImage else none) st.userImages
      have hfn := (gsi_success_shape env page tid
        (if useRef then st.coverImage else none) st.userImages hs).1
      rw [show (retrySingleImage env tid page useRef fo ut (some st)).2 =
          some ⟨st.pages, dictSet st.generated page.index (toString page.index ++ ".png"),
            dictDel st.failed page.index, st.coverImage, st.fullOutline, st.userImages,
            st.userTopic⟩ from by simp [retrySingleImage, hs, hfn, hidx]] at h
      rw [← Option.some.inj h]
      exact stateInv_move st page.index _ hinv hpage
    · rw [Bool.not_eq_true] at hs
      rw [show (retrySingleImage env tid page useRef fo ut (some st)).2 = some st from
        by simp [retrySingleImage, hs]] at h
      rw [← Option.some.inj h]
      exact hinv
  · intro env tid pages st st' sched hinv hmem hsched h
    unfold retryFailedImages at h
    dsimp only at h
    have hmem' : ∀ p ∈ sched pages, ∃ q ∈ st.pages, q.index = p.index :=
      fun p hp => hmem p ((hsched pages).mem_iff.mp hp)
    have := retryFold_inv env tid st.coverImage st.pages (sched pages) hmem'
      ⟨[Event.retryStart pages.length], some st, 0, 0⟩
      (fun s0 hs0 => by
        have := Option.some.inj hs0
        rw [← this]
        exact ⟨rfl, hinv⟩)
      st' h
    exact this.2

/-- Witness for C3: the invariant after a two-page run with an
always-succeeding generator. -/
theorem C3_state_invariant_witness :
    StateInv (generateImages envAllOk [⟨1, "cover", "a"⟩, ⟨2, "content", "b"⟩]
      "t" "" none "" false idSched).state :=
  C3_state_invariant.2.1 envAllOk [⟨1, "cover", "a"⟩, ⟨2, "content", "b"⟩] "t" "" "" none false
    idSched (by decide) (fun l => List.Perm.refl l)

end XSB

